import Mathlib

/-!
Verification of the graph-rag indexing-and-query engine.

This file gives a shallow embedding of the SQLite-backed metadata store of
the repository (src/graphrag/db/schema.py), the repository write path
(src/graphrag/db/repository.py), the graph query read path
(src/graphrag/db/queries.py), the branch-aware query facade
(src/graphrag/db/query_service.py) and the indexer services
(src/graphrag/indexer/service.py, src/graphrag/indexer/feature_service.py).

Tables are lists of row structures, append-ordered by their autoincrement
id.  SQL result order, where SQLite leaves it unspecified, is modelled as
the canonical scan order (table order / per-driving-table order); all
embedded read paths use the same convention.  Python dicts are modelled as
insertion-ordered association lists with replace-in-place update, and
Python sets used for ordered iteration are modelled as insertion-ordered
duplicate-free lists.  JSON round-trips (json.dumps with sort_keys
followed by json.loads) are modelled as the identity on the structured
value.
-/

namespace GraphRag

/-- Python dict lookup (`d.get(k)`): first (and by the maintained
uniqueness invariant, only) binding of the key. -/
def pyGet {α β : Type} [BEq α] (d : List (α × β)) (k : α) : Option β :=
  match d.find? (fun kv => kv.1 == k) with
  | some kv => some kv.2
  | none => none

/-- Python dict assignment (`d[k] = v`): replace the value in place when
the key is present, else append the new binding. -/
def pyInsert {α β : Type} [BEq α] (d : List (α × β)) (k : α) (v : β) :
    List (α × β) :=
  match d with
  | [] => [(k, v)]
  | kv :: rest =>
      if kv.1 == k then (k, v) :: rest else kv :: pyInsert rest k v

/-- Python `d.pop(k, None)`: drop the binding of the key when present. -/
def pyPop {α β : Type} [BEq α] (d : List (α × β)) (k : α) :
    List (α × β) :=
  d.filter (fun kv => kv.1 != k)

/-- Python truthiness of an optional string (`None` and `""` falsy). -/
def pyTruthy (o : Option String) : Bool :=
  match o with
  | none => false
  | some s => s != ""

/-- Membership in an insertion-ordered set of strings. -/
def setMem (s : List String) (x : String) : Bool := s.contains x

/-- Insertion-ordered set add (no-op when already present). -/
def setAdd (s : List String) (x : String) : List String :=
  if s.contains x then s else s ++ [x]

/-- Python truthiness-based `a or b` for an optional string: `None` and
the empty string both fall through to the fallback. -/
def pyOr (a : Option String) (b : String) : String :=
  match a with
  | none => b
  | some s => if s = "" then b else s

/-- Python `str.lower()` (ASCII case folding as used on the direction
and target-type arguments). -/
def pyLower (s : String) : String := String.mk (s.data.map Char.toLower)

/-- Code-point lexicographic comparison of character lists. -/
def charListLt : List Char → List Char → Bool
  | [], [] => false
  | [], _ :: _ => true
  | _ :: _, [] => false
  | a :: as, b :: bs =>
      if a.toNat < b.toNat then true
      else if b.toNat < a.toNat then false
      else charListLt as bs

/-- Python string `<`: code-point lexicographic order. -/
def strLt (a b : String) : Bool := charListLt a.data b.data

/-- Next autoincrement id for a table with the given ids. -/
def nextId (ids : List Nat) : Nat := ids.foldr max 0 + 1

/-- Greatest element of a list of naturals (0 when empty). -/
def listMax (xs : List Nat) : Nat := xs.foldr max 0

/-- JSON-object metadata attached to relationships, modelled as an
insertion-ordered association list of string pairs. -/
abbrev Metadata := List (String × String)

/-! ## Record model (src/graphrag/models/records.py) -/

/-- models.records.MemberRecord. -/
structure MemberRecord where
  name : String
  kind : String
  signature : String
  code : String
  start_line : Nat
  end_line : Nat
  deriving Repr, DecidableEq

/-- models.records.EntityRecord. -/
structure EntityRecord where
  name : String
  kind : String
  module : String
  language : String
  file_path : String
  start_line : Nat
  end_line : Nat
  signature : String
  code : String
  stable_id : String
  docstring : Option String := none
  extended_type : Option String := none
  target_type : Option String := none
  visibility : Option String := none
  members : List MemberRecord := []
  deriving Repr, DecidableEq

/-- models.records.RelationshipRecord. -/
structure RelationshipRecord where
  source_stable_id : String
  target_name : String
  edge_type : String
  metadata : Metadata := []
  target_module : Option String := none
  deriving Repr, DecidableEq

/-- models.records.ExtensionRecord. -/
structure ExtensionRecord where
  stable_id : String
  extended_type : String
  module : String
  language : String
  file_path : String
  start_line : Nat
  end_line : Nat
  signature : String
  code : String
  constraints : Option String := none
  visibility : Option String := none
  target_type : Option String := none
  members : List MemberRecord := []
  conformances : List String := []
  deriving Repr, DecidableEq

/-- models.records.ParsedSource: the bundle returned by SwiftParser.parse.
It is a plain dataclass and defines neither an `__iter__` nor a
`__getitem__` method, so Python iteration over it raises a TypeError. -/
structure ParsedSource where
  entities : List EntityRecord := []
  extensions : List ExtensionRecord := []
  relationships : List RelationshipRecord := []
  deriving Repr, DecidableEq

/-- Iterating a ParsedSource with a Python `for` loop: always fails,
because the dataclass declares no iteration protocol. -/
def pyIterEntityRecords (_ps : ParsedSource) : Option (List EntityRecord) :=
  none

/-! ## Store row types (src/graphrag/db/schema.py) -/

/-- Row of `commits`. -/
structure CommitRow where
  id : Nat
  hash : String
  parent_hash : Option String
  branch : String
  is_master : Bool
  deriving Repr, DecidableEq

/-- Row of `files`. -/
structure FileRow where
  id : Nat
  path : String
  language : String
  deriving Repr, DecidableEq

/-- Row of `entities`. -/
structure EntityRow where
  id : Nat
  stable_id : String
  name : String
  kind : String
  module : String
  language : String
  primary_file_id : Option Nat
  deriving Repr, DecidableEq

/-- The JSON property bag stored in `entity_versions.properties`; the
readers access it only through `json_extract` of `target_type` and
`visibility` (plus the opaque whole-bag copy). -/
structure PropBag where
  extended_type : Option String := none
  member_count : Nat := 0
  target_type : Option String := none
  visibility : Option String := none
  deriving Repr, DecidableEq

/-- Row of `entity_versions`.  The `docstring` and `code` columns are
written by the repository but never read by any embedded query, and the
line range is likewise payload-irrelevant; they are carried for
faithfulness of the write path. -/
structure VersionRow where
  id : Nat
  entity_id : Nat
  commit_id : Nat
  file_id : Option Nat
  start_line : Option Nat
  end_line : Option Nat
  signature : Option String
  docstring : Option String
  code : Option String
  properties : Option PropBag
  is_deleted : Bool
  deriving Repr, DecidableEq

/-- Row of `members`. -/
structure MemberRow where
  id : Nat
  entity_id : Nat
  stable_id : String
  name : String
  kind : String
  deriving Repr, DecidableEq

/-- Row of `member_versions`. -/
structure MemberVersionRow where
  id : Nat
  member_id : Nat
  commit_id : Nat
  file_id : Option Nat
  is_deleted : Bool
  deriving Repr, DecidableEq

/-- Row of `entity_relationships`. -/
structure RelRow where
  id : Nat
  source_entity_id : Nat
  target_entity_id : Option Nat
  target_name : String
  target_module : Option String
  edge_type : String
  metadata : Metadata
  commit_id : Nat
  is_deleted : Bool
  deriving Repr, DecidableEq

/-- Row of `extensions`. -/
structure ExtensionRow where
  id : Nat
  stable_id : String
  entity_id : Nat
  extended_type : String
  module : String
  language : String
  deriving Repr, DecidableEq

/-- Row of `extension_versions`. -/
structure ExtVersionRow where
  id : Nat
  extension_id : Nat
  commit_id : Nat
  file_id : Option Nat
  signature : Option String
  visibility : Option String
  constraints : Option String
  conformances : List String
  properties : Option PropBag
  is_deleted : Bool
  deriving Repr, DecidableEq

/-- Row of the materialized `entity_latest` table. -/
structure EntityLatestRow where
  stable_id : String
  entity_id : Nat
  name : String
  kind : String
  module : String
  file_path : Option String
  signature : Option String
  properties : Option PropBag
  member_names : String
  target_type : Option String
  visibility : Option String
  commit_hash : String
  deriving Repr, DecidableEq

/-- Row of the materialized `relationship_latest` table (the
autoincrement id is never read by any consumer and is omitted). -/
structure RelLatestRow where
  source_stable_id : String
  source_name : String
  target_stable_id : Option String
  target_name : String
  target_module : Option String
  edge_type : String
  metadata : Metadata
  deriving Repr, DecidableEq

/-- Row of the materialized `extension_latest` table. -/
structure ExtLatestRow where
  stable_id : String
  extension_id : Nat
  entity_id : Nat
  entity_stable_id : String
  extended_type : String
  module : String
  file_path : Option String
  signature : Option String
  visibility : Option String
  constraints : Option String
  conformances : List String
  member_names : String
  target_type : Option String
  commit_hash : String
  deriving Repr, DecidableEq

/-- The whole SQLite store of one database file. -/
structure Db where
  commits : List CommitRow := []
  files : List FileRow := []
  entities : List EntityRow := []
  entity_files : List (Nat × Nat × Bool) := []
  entity_versions : List VersionRow := []
  members : List MemberRow := []
  member_versions : List MemberVersionRow := []
  entity_relationships : List RelRow := []
  extensions : List ExtensionRow := []
  extension_versions : List ExtVersionRow := []
  entity_latest : List EntityLatestRow := []
  relationship_latest : List RelLatestRow := []
  extension_latest : List ExtLatestRow := []
  schema_meta : List (String × String) := []
  deriving Repr, DecidableEq

/-! ## Repository write path (src/graphrag/db/repository.py) -/

/-- Dedup-preserving add for the `source_ids` Python set (membership is
all that is ever observed: the ids feed a SQL `IN` filter). -/
def natSetAdd (s : List Nat) (x : Nat) : List Nat :=
  if s.contains x then s else s ++ [x]

/-- MetadataRepository.record_commit: `INSERT OR IGNORE` on the unique
hash, then select the id. -/
def recordCommit (db : Db) (hash : String) (parent : Option String)
    (branch : String) (isMaster : Bool) : Db × Nat :=
  match db.commits.find? (fun c => c.hash == hash) with
  | some c => (db, c.id)
  | none =>
      let cid := nextId (db.commits.map (fun c => c.id))
      ({ db with
          commits := db.commits ++
            [{ id := cid, hash := hash, parent_hash := parent,
               branch := branch, is_master := isMaster }] }, cid)

/-- MetadataRepository.ensure_file: `INSERT OR IGNORE` on the unique
path, then select the id. -/
def ensureFile (db : Db) (path : String) (language : String) : Db × Nat :=
  match db.files.find? (fun f => f.path == path) with
  | some f => (db, f.id)
  | none =>
      let fid := nextId (db.files.map (fun f => f.id))
      ({ db with
          files := db.files ++ [{ id := fid, path := path, language := language }] },
       fid)

/-- `entity_files` upsert with `ON CONFLICT(entity_id, file_id) DO UPDATE
SET is_primary = 1`. -/
def upsertEntityFiles (efs : List (Nat × Nat × Bool)) (eid fid : Nat) :
    List (Nat × Nat × Bool) :=
  if efs.any (fun t => t.1 == eid && t.2.1 == fid) then
    efs.map (fun t => if t.1 == eid && t.2.1 == fid then (eid, fid, true) else t)
  else efs ++ [(eid, fid, true)]

/-- MetadataRepository.upsert_entity. -/
def upsertEntity (db : Db) (record : EntityRecord) (fileId : Nat) : Db × Nat :=
  match db.entities.find? (fun e => e.stable_id == record.stable_id) with
  | some e =>
      let updated := db.entities.map (fun row =>
        if row.id == e.id then
          { row with
              name := record.name, kind := record.kind,
              module := record.module, language := record.language,
              primary_file_id := some fileId }
        else row)
      ({ db with
          entities := updated,
          entity_files := upsertEntityFiles db.entity_files e.id fileId }, e.id)
  | none =>
      let eid := nextId (db.entities.map (fun e => e.id))
      ({ db with
          entities := db.entities ++
            [{ id := eid, stable_id := record.stable_id, name := record.name,
               kind := record.kind, module := record.module,
               language := record.language, primary_file_id := some fileId }],
          entity_files := upsertEntityFiles db.entity_files eid fileId }, eid)

/-- Python truthiness on an optional string column value: `None` and the
empty string are both falsy (the property-bag keys are only written for
truthy values). -/
def truthyOpt (o : Option String) : Option String :=
  match o with
  | none => none
  | some s => if s = "" then none else some s

/-- MetadataRepository.record_entity_version. -/
def recordEntityVersion (db : Db) (entityId commitId fileId : Nat)
    (record : EntityRecord) (isDeleted : Bool) : Db :=
  let props : PropBag :=
    { extended_type := record.extended_type,
      member_count := record.members.length,
      target_type := truthyOpt record.target_type,
      visibility := truthyOpt record.visibility }
  let vid := nextId (db.entity_versions.map (fun v => v.id))
  { db with
      entity_versions := db.entity_versions ++
        [{ id := vid, entity_id := entityId, commit_id := commitId,
           file_id := some fileId, start_line := some record.start_line,
           end_line := some record.end_line, signature := some record.signature,
           docstring := record.docstring, code := some record.code,
           properties := some props, is_deleted := isDeleted }] }

/-- MetadataRepository._member_stable_id. -/
def memberStableId (entityId : Nat) (member : MemberRecord) : String :=
  toString entityId ++ ":" ++ member.kind ++ ":" ++ member.name

/-- MetadataRepository.upsert_member. -/
def upsertMember (db : Db) (entityId : Nat) (member : MemberRecord) : Db × Nat :=
  let sid := memberStableId entityId member
  match db.members.find? (fun m => m.stable_id == sid) with
  | some m =>
      ({ db with
          members := db.members.map (fun row =>
            if row.id == m.id then
              { row with name := member.name, kind := member.kind }
            else row) }, m.id)
  | none =>
      let mid := nextId (db.members.map (fun m => m.id))
      ({ db with
          members := db.members ++
            [{ id := mid, entity_id := entityId, stable_id := sid,
               name := member.name, kind := member.kind }] }, mid)

/-- MetadataRepository.record_member_version. -/
def recordMemberVersion (db : Db) (memberId commitId fileId : Nat)
    (isDeleted : Bool) : Db :=
  let vid := nextId (db.member_versions.map (fun v => v.id))
  { db with
      member_versions := db.member_versions ++
        [{ id := vid, member_id := memberId, commit_id := commitId,
           file_id := some fileId, is_deleted := isDeleted }] }

/-- Persist one entity record: ensure the file row, upsert the entity,
record a version, then upsert and version each member (the per-record
body of MetadataRepository.persist_entities). -/
def persistOneEntity (db : Db) (commitId : Nat) (record : EntityRecord) :
    Db × Nat :=
  let (db, fileId) := ensureFile db record.file_path record.language
  let (db, entityId) := upsertEntity db record fileId
  let db := recordEntityVersion db entityId commitId fileId record false
  let db := record.members.foldl (fun d member =>
    let (d, memberId) := upsertMember d entityId member
    recordMemberVersion d memberId commitId fileId false) db
  (db, entityId)

/-- MetadataRepository.persist_entities: returns the `stable_id ->
entity_id` map alongside the updated store. -/
def persistEntities (db : Db) (commitId : Nat)
    (records : List EntityRecord) : Db × List (String × Nat) :=
  records.foldl (fun (acc : Db × List (String × Nat)) record =>
    let (db, idMap) := acc
    let (db, entityId) := persistOneEntity db commitId record
    (db, pyInsert idMap record.stable_id entityId)) (db, [])

/-- `ORDER BY id DESC LIMIT 1` over a filtered entity scan. -/
def argmaxIdEntity (rows : List EntityRow) : Option EntityRow :=
  rows.foldl (fun acc r =>
    match acc with
    | none => some r
    | some b => if r.id > b.id then some r else some b) none

/-- MetadataRepository._lookup_entity_id.  Note the Python truthiness
test `if module:`: `None` and the empty string both select the
name-only branch, and when a module is given there is no fallback to the
name-only lookup. -/
def lookupEntityId (db : Db) (name : String) (module : Option String) :
    Option Nat :=
  match module with
  | some m =>
      if m = "" then
        (argmaxIdEntity (db.entities.filter (fun e => e.name == name))).map
          (fun e => e.id)
      else
        (argmaxIdEntity (db.entities.filter
            (fun e => e.name == name && e.module == m))).map (fun e => e.id)
  | none =>
      (argmaxIdEntity (db.entities.filter (fun e => e.name == name))).map
        (fun e => e.id)

/-- MetadataRepository._lookup_entity_id_by_stable_id. -/
def lookupEntityIdByStable (db : Db) (stableId : String) : Option Nat :=
  (db.entities.find? (fun e => e.stable_id == stableId)).map (fun e => e.id)

/-- The tombstone copy of a live relationship row: same payload columns,
fresh id, the given commit, `is_deleted = 1`. -/
def mkTombstone (r : RelRow) (id c : Nat) : RelRow :=
  { r with id := id, commit_id := c, is_deleted := true }

/-- MetadataRepository._tombstone_relationships: copy every
`is_deleted = 0` row of the given sources as a tombstone at this commit,
in table scan order. -/
def tombstoneRelationships (db : Db) (sourceIds : List Nat) (c : Nat) : Db :=
  if sourceIds.isEmpty then db
  else
    let picked := db.entity_relationships.filter (fun r =>
      sourceIds.contains r.source_entity_id && !r.is_deleted)
    let base := nextId (db.entity_relationships.map (fun r => r.id))
    let newRows := picked.enum.map (fun p => mkTombstone p.2 (base + p.1) c)
    { db with entity_relationships := db.entity_relationships ++ newRows }

/-- MetadataRepository._insert_relationship. -/
def insertRelationship (db : Db) (sourceId : Nat) (targetId : Option Nat)
    (name : String) (module : Option String) (edgeType : String)
    (metadata : Metadata) (c : Nat) (isDeleted : Bool) : Db :=
  let rid := nextId (db.entity_relationships.map (fun r => r.id))
  { db with
      entity_relationships := db.entity_relationships ++
        [{ id := rid, source_entity_id := sourceId, target_entity_id := targetId,
           target_name := name, target_module := module, edge_type := edgeType,
           metadata := metadata, commit_id := c, is_deleted := isDeleted }] }

/-- Source resolution of one relationship record inside
persist_relationships: the freshly persisted id map first, then a
stable-id lookup (the Python memo caches only avoid repeated lookups
against the unchanged table and are observationally transparent). -/
def resolveSourceId (db : Db) (idMap : List (String × Nat)) (s : String) :
    Option Nat :=
  match pyGet idMap s with
  | some v => some v
  | none => lookupEntityIdByStable db s

/-- The `resolved` list of persist_relationships: records whose source
resolves, each with its resolved source id and target id (one exact
`(name, module)` lookup, no fallback). -/
def resolvedRecs (db : Db) (idMap : List (String × Nat))
    (recs : List RelationshipRecord) :
    List (Nat × RelationshipRecord × Option Nat) :=
  recs.filterMap (fun rel =>
    match resolveSourceId db idMap rel.source_stable_id with
    | none => none
    | some sid => some (sid, rel, lookupEntityId db rel.target_name rel.target_module))

/-- The `source_ids` set of persist_relationships: the id-map values plus
every resolved record source. -/
def collectedSourceIds (db : Db) (idMap : List (String × Nat))
    (recs : List RelationshipRecord) : List Nat :=
  (resolvedRecs db idMap recs).foldl (fun s t => natSetAdd s t.1)
    ((idMap.map (fun kv => kv.2)).foldl natSetAdd [])

/-- MetadataRepository.persist_relationships. -/
def persistRelationships (db : Db) (c : Nat) (idMap : List (String × Nat))
    (recs : List RelationshipRecord) : Db :=
  if idMap.isEmpty && recs.isEmpty then db
  else
    let resolved := resolvedRecs db idMap recs
    let sourceIds := collectedSourceIds db idMap recs
    if sourceIds.isEmpty then db
    else
      let db := tombstoneRelationships db sourceIds c
      resolved.foldl (fun d t =>
        insertRelationship d t.1 t.2.2 t.2.1.target_name t.2.1.target_module
          t.2.1.edge_type t.2.1.metadata c false) db

/-- MetadataRepository.mark_extensions_deleted_for_file. -/
def markExtensionsDeletedForFile (db : Db) (path : String) (c : Nat) : Db :=
  match db.files.find? (fun f => f.path == path) with
  | none => db
  | some f =>
      let extIds := (db.extension_versions.filter
          (fun v => v.file_id == some f.id)).foldl
        (fun acc v => natSetAdd acc v.extension_id) []
      extIds.foldl (fun d extId =>
        let vid := nextId (d.extension_versions.map (fun v => v.id))
        { d with
            extension_versions := d.extension_versions ++
              [{ id := vid, extension_id := extId, commit_id := c,
                 file_id := some f.id, signature := none, visibility := none,
                 constraints := none, conformances := [], properties := none,
                 is_deleted := true }] }) db

/-- MetadataRepository.mark_entities_deleted_for_file: deletion version
rows for every entity joined to the file and for each of its members,
tombstones of their outgoing relationships, removal of the join rows,
then the extension cascade. -/
def markEntitiesDeletedForFile (db : Db) (path : String) (c : Nat) : Db :=
  match db.files.find? (fun f => f.path == path) with
  | none => db
  | some f =>
      let entityIds := (db.entity_files.filter (fun t => t.2.1 == f.id)).map
        (fun t => t.1)
      let db := entityIds.foldl (fun (d : Db) (eid : Nat) =>
        let vid := nextId (d.entity_versions.map (fun v => v.id))
        let d : Db := { d with
          entity_versions := d.entity_versions ++
            [{ id := vid, entity_id := eid, commit_id := c,
               file_id := some f.id, start_line := none, end_line := none,
               signature := none, docstring := none, code := none,
               properties := none, is_deleted := true }] }
        let memberIds := (d.members.filter (fun m => m.entity_id == eid)).map
          (fun m => m.id)
        let d : Db := memberIds.foldl (fun (d2 : Db) (mid : Nat) =>
          let mvid := nextId (d2.member_versions.map (fun v => v.id))
          { d2 with
              member_versions := d2.member_versions ++
                [{ id := mvid, member_id := mid, commit_id := c,
                   file_id := some f.id, is_deleted := true }] }) d
        tombstoneRelationships d [eid] c) db
      let db := { db with
        entity_files := db.entity_files.filter (fun t => t.2.1 != f.id) }
      markExtensionsDeletedForFile db path c

/-! ## Shared SQL fragments

The latest-version CTEs appear with identical text in
queries._load_entities / queries._load_relationships and in
repository.rebuild_latest_tables; they are translated once here.  Where
SQLite leaves result order unspecified, the canonical scan order of the
driving versioned table is used consistently. -/

/-- `SELECT entity_id, MAX(commit_id) FROM entity_versions GROUP BY
entity_id`, looked up for one entity. -/
def entityMaxCommit (vers : List VersionRow) (eid : Nat) : Option Nat :=
  let cs := (vers.filter (fun v => v.entity_id == eid)).map (fun v => v.commit_id)
  match cs with
  | [] => none
  | _ => some (listMax cs)

/-- All version rows of an entity at its maximal commit. -/
def entityRowsAtMaxCommit (vers : List VersionRow) (eid : Nat) :
    List VersionRow :=
  match entityMaxCommit vers eid with
  | none => []
  | some mc => vers.filter (fun v => v.entity_id == eid && v.commit_id == mc)

/-- `MAX(ev.id)` row selection used by the rebuild CTE `latest_version`. -/
def argmaxIdVersion (rows : List VersionRow) : Option VersionRow :=
  rows.foldl (fun acc r =>
    match acc with
    | none => some r
    | some b => if r.id > b.id then some r else some b) none

/-- The single version row the rebuild of `entity_latest` picks for an
entity: maximal commit, then maximal version id within it. -/
def versionRowForRebuild (vers : List VersionRow) (eid : Nat) :
    Option VersionRow :=
  argmaxIdVersion (entityRowsAtMaxCommit vers eid)

/-- `SELECT extension_id, MAX(commit_id) FROM extension_versions GROUP BY
extension_id`, looked up for one extension. -/
def extMaxCommit (vers : List ExtVersionRow) (xid : Nat) : Option Nat :=
  let cs := (vers.filter (fun v => v.extension_id == xid)).map
    (fun v => v.commit_id)
  match cs with
  | [] => none
  | _ => some (listMax cs)

/-- `GROUP_CONCAT(name, '|')` over the members of one entity (no row for
an entity without members). -/
def memberNamesJoined (ms : List MemberRow) (eid : Nat) : Option String :=
  let names := (ms.filter (fun m => m.entity_id == eid)).map (fun m => m.name)
  match names with
  | [] => none
  | _ => some (String.intercalate "|" names)

/-- Python `value.split("|") if value else []`. -/
def splitMemberNames (s : String) : List String :=
  if s = "" then [] else s.splitOn "|"

/-- The member-name list attached by the query loader:
group-concatenated names split back on the pipe character. -/
def memberNamesList (ms : List MemberRow) (eid : Nat) : List String :=
  match memberNamesJoined ms eid with
  | none => []
  | some s => splitMemberNames s

/-- `JOIN commits ON commits.id = commit_id` (inner join: returns none
when the commit row is absent and the joined row is dropped). -/
def commitHash (cs : List CommitRow) (cid : Nat) : Option String :=
  (cs.find? (fun c => c.id == cid)).map (fun c => c.hash)

/-- `LEFT JOIN files f ON f.id = file_id`, projecting the path. -/
def filePath (fs : List FileRow) (fid : Option Nat) : Option String :=
  fid.bind (fun i => (fs.find? (fun f => f.id == i)).map (fun f => f.path))

/-- Grouping key of the first relationship CTE (`latest`):
`COALESCE(target_module, '')` conflates a NULL module with the empty
string, the target id is grouped through `COALESCE(target_entity_id,-1)`
which is injective on optional ids. -/
def relStage1Key (r : RelRow) : Nat × Option Nat × String × String × String :=
  (r.source_entity_id, r.target_entity_id, r.target_name,
   r.target_module.getD "", r.edge_type)

/-- Grouping key of the second relationship CTE (`deduplicated` /
`latest_rel`): raw columns, SQL GROUP BY placing NULLs together. -/
def relStage2Key (r : RelRow) :
    Nat × Option Nat × String × Option String × String :=
  (r.source_entity_id, r.target_entity_id, r.target_name,
   r.target_module, r.edge_type)

/-- Maximal commit of the stage-1 group of a row. -/
def relMaxCommitFor (rels : List RelRow) (r : RelRow) : Nat :=
  listMax ((rels.filter (fun q => relStage1Key q == relStage1Key r)).map
    (fun q => q.commit_id))

/-- Rows surviving the stage-1 join: commit equal to their group's
maximal commit. -/
def relRowsAtMax (rels : List RelRow) : List RelRow :=
  rels.filter (fun r => r.commit_id == relMaxCommitFor rels r)

/-- `MAX(er.id)` row pick inside a stage-2 group. -/
def argmaxIdRel (rows : List RelRow) : Option RelRow :=
  rows.foldl (fun acc r =>
    match acc with
    | none => some r
    | some b => if r.id > b.id then some r else some b) none

/-- The selected relationship rows: per stage-2 group of the
max-commit rows, the row of maximal id, emitted in order of first group
appearance. -/
def relSelected (rels : List RelRow) : List RelRow :=
  let atMax := relRowsAtMax rels
  (atMax.foldl
    (fun (acc : List (Nat × Option Nat × String × Option String × String) ×
        List RelRow) r =>
      if acc.1.contains (relStage2Key r) then acc
      else
        match argmaxIdRel (atMax.filter
            (fun q => relStage2Key q == relStage2Key r)) with
        | none => acc
        | some best => (acc.1 ++ [relStage2Key r], acc.2 ++ [best]))
    ([], [])).2

/-! ## Loaded records of the query engine (src/graphrag/db/queries.py)

The loaders also place `source_entity_id` / `target_entity_id` (and for
entities the raw `properties` text) in the produced dicts, but no
consumer of a loaded record ever reads them; those dead fields are
omitted from the embedded record types. -/

/-- An extension as loaded for the graph payload. -/
structure LoadedExt where
  stable_id : String
  entity_stable_id : String
  extended_type : String
  module : String
  file_path : Option String
  signature : Option String
  visibility : Option String
  constraints : Option String
  conformances : List String
  member_names : List String
  target_type : Option String
  commit_hash : String
  origin : String
  deriving Repr, DecidableEq

/-- An entity as loaded for the graph payload. -/
structure LoadedEntity where
  entity_id : Nat
  stable_id : String
  name : String
  kind : String
  module : String
  file_path : Option String
  signature : Option String
  commit_hash : String
  member_names : List String
  origin : String
  target_type : Option String
  visibility : Option String
  extensions : List LoadedExt
  deriving Repr, DecidableEq

/-- A relationship as loaded for the graph payload. -/
structure LoadedRel where
  target_name : String
  target_module : Option String
  edge_type : String
  metadata : Metadata
  source_stable_id : String
  source_name : String
  target_stable_id : Option String
  target_entity_name : Option String
  origin : String
  deriving Repr, DecidableEq

/-- queries._relationship_key: the 5-tuple dedup key of a loaded
relationship. -/
def relationshipKey (r : LoadedRel) :
    String × Option String × String × Option String × String :=
  (r.source_stable_id, r.target_stable_id, r.target_name,
   r.target_module, r.edge_type)

/-- queries._load_extensions: all extensions with their latest version
state (max commit per extension, tombstones excluded in the WHERE
clause, inner joins to extensions, entities and commits). -/
def loadExtensions (db : Db) (origin : String) : List LoadedExt :=
  (db.extension_versions.filter (fun v =>
      extMaxCommit db.extension_versions v.extension_id == some v.commit_id &&
      !v.is_deleted)).foldl
    (fun acc v =>
      match db.extensions.find? (fun x => x.id == v.extension_id) with
      | none => acc
      | some x =>
          match db.entities.find? (fun e => e.id == x.entity_id) with
          | none => acc
          | some e =>
              match commitHash db.commits v.commit_id with
              | none => acc
              | some h =>
                  let row : LoadedExt :=
                    { stable_id := x.stable_id,
                      entity_stable_id := e.stable_id,
                      extended_type := x.extended_type, module := x.module,
                      file_path := filePath db.files v.file_id,
                      signature := v.signature, visibility := v.visibility,
                      constraints := v.constraints,
                      conformances := v.conformances, member_names := [],
                      target_type := v.properties.bind (fun p => p.target_type),
                      commit_hash := h, origin := origin }
                  acc ++ [row]) []

/-- Attach loaded extensions to their parent entities (the trailing loop
shared by queries._load_entities and queries._load_entities_fast). -/
def attachExtensions (dict : List (String × LoadedEntity))
    (exts : List LoadedExt) : List (String × LoadedEntity) :=
  exts.foldl (fun d ext =>
    match pyGet d ext.entity_stable_id with
    | some ent =>
        pyInsert d ext.entity_stable_id
          { ent with extensions := ent.extensions ++ [ext] }
    | none => d) dict

/-- queries._load_entities: latest version state per entity (dict built
by overwrite in scan order, tombstoned stable ids collected apart), then
member names and extensions attached. -/
def loadEntities (db : Db) (origin : String) :
    List (String × LoadedEntity) × List String :=
  let scan := db.entity_versions.filter (fun v =>
    entityMaxCommit db.entity_versions v.entity_id == some v.commit_id)
  let start : List (String × LoadedEntity) × List String := ([], [])
  let pair := scan.foldl (fun acc v =>
    match db.entities.find? (fun e => e.id == v.entity_id) with
    | none => acc
    | some e =>
        match commitHash db.commits v.commit_id with
        | none => acc
        | some h =>
            if v.is_deleted then (acc.1, setAdd acc.2 e.stable_id)
            else
              (pyInsert acc.1 e.stable_id
                { entity_id := e.id, stable_id := e.stable_id,
                  name := e.name, kind := e.kind, module := e.module,
                  file_path := filePath db.files v.file_id,
                  signature := v.signature, commit_hash := h,
                  member_names := memberNamesList db.members e.id,
                  origin := origin,
                  target_type := v.properties.bind (fun p => p.target_type),
                  visibility := v.properties.bind (fun p => p.visibility),
                  extensions := [] }, acc.2)) start
  (attachExtensions pair.1 (loadExtensions db origin), pair.2)

/-- queries._load_relationships: selected latest relationship rows
joined to source (inner) and target (left) entities, split into live
relationships and tombstone keys. -/
def loadRelationships (db : Db) (origin : String) :
    List LoadedRel ×
      List (String × Option String × String × Option String × String) :=
  (relSelected db.entity_relationships).foldl
    (fun acc r =>
      match db.entities.find? (fun e => e.id == r.source_entity_id) with
      | none => acc
      | some src =>
          let tgt := r.target_entity_id.bind
            (fun i => db.entities.find? (fun e => e.id == i))
          let rel : LoadedRel :=
            { target_name := r.target_name, target_module := r.target_module,
              edge_type := r.edge_type, metadata := r.metadata,
              source_stable_id := src.stable_id, source_name := src.name,
              target_stable_id := tgt.map (fun e => e.stable_id),
              target_entity_name := tgt.map (fun e => e.name),
              origin := origin }
          if r.is_deleted then (acc.1, acc.2 ++ [relationshipKey rel])
          else (acc.1 ++ [rel], acc.2)) ([], [])

/-! ## Rebuild of the materialized views
(MetadataRepository.rebuild_latest_tables) -/

/-- The `entity_latest` content the rebuild computes: one row per entity
(latest commit, then maximal version id), tombstones excluded. -/
def computeEntityLatest (db : Db) : List EntityLatestRow :=
  db.entity_versions.foldl (fun acc v =>
    if versionRowForRebuild db.entity_versions v.entity_id == some v &&
        !v.is_deleted then
      match db.entities.find? (fun e => e.id == v.entity_id) with
      | none => acc
      | some e =>
          match commitHash db.commits v.commit_id with
          | none => acc
          | some h =>
              let row : EntityLatestRow :=
                { stable_id := e.stable_id, entity_id := e.id,
                  name := e.name, kind := e.kind, module := e.module,
                  file_path := filePath db.files v.file_id,
                  signature := v.signature, properties := v.properties,
                  member_names := (memberNamesJoined db.members e.id).getD "",
                  target_type := v.properties.bind (fun p => p.target_type),
                  visibility := v.properties.bind (fun p => p.visibility),
                  commit_hash := h }
              acc ++ [row]
    else acc) []

/-- Conflict test of the `relationship_latest` UNIQUE constraint.  In
SQLite a NULL in a unique index never conflicts, so rows with a NULL
target stable id or module are always inserted. -/
def relLatestConflict (a b : RelLatestRow) : Bool :=
  a.source_stable_id == b.source_stable_id &&
  a.target_stable_id.isSome && b.target_stable_id.isSome &&
  a.target_stable_id == b.target_stable_id &&
  a.target_name == b.target_name &&
  a.target_module.isSome && b.target_module.isSome &&
  a.target_module == b.target_module &&
  a.edge_type == b.edge_type

/-- `INSERT OR REPLACE` into `relationship_latest`: a conflicting old
row is deleted and the new row appended. -/
def relLatestInsert (acc : List RelLatestRow) (row : RelLatestRow) :
    List RelLatestRow :=
  (acc.filter (fun x => !relLatestConflict x row)) ++ [row]

/-- The `relationship_latest` content the rebuild computes. -/
def computeRelationshipLatest (db : Db) : List RelLatestRow :=
  (relSelected db.entity_relationships).foldl
    (fun acc r =>
      if r.is_deleted then acc
      else
        match db.entities.find? (fun e => e.id == r.source_entity_id) with
        | none => acc
        | some src =>
            let tgt := r.target_entity_id.bind
              (fun i => db.entities.find? (fun e => e.id == i))
            relLatestInsert acc
              { source_stable_id := src.stable_id, source_name := src.name,
                target_stable_id := tgt.map (fun e => e.stable_id),
                target_name := r.target_name,
                target_module := r.target_module,
                edge_type := r.edge_type, metadata := r.metadata }) []

/-- The `extension_latest` content the rebuild computes (max commit per
extension, no id tie-break, tombstones excluded, member names stored as
the empty string). -/
def computeExtensionLatest (db : Db) : List ExtLatestRow :=
  db.extension_versions.foldl (fun acc v =>
    if extMaxCommit db.extension_versions v.extension_id == some v.commit_id &&
        !v.is_deleted then
      match db.extensions.find? (fun x => x.id == v.extension_id) with
      | none => acc
      | some x =>
          match db.entities.find? (fun e => e.id == x.entity_id) with
          | none => acc
          | some e =>
              match commitHash db.commits v.commit_id with
              | none => acc
              | some h =>
                  let row : ExtLatestRow :=
                    { stable_id := x.stable_id, extension_id := x.id,
                      entity_id := x.entity_id, entity_stable_id := e.stable_id,
                      extended_type := x.extended_type, module := x.module,
                      file_path := filePath db.files v.file_id,
                      signature := v.signature, visibility := v.visibility,
                      constraints := v.constraints,
                      conformances := v.conformances, member_names := "",
                      target_type := v.properties.bind (fun p => p.target_type),
                      commit_hash := h }
                  acc ++ [row]
    else acc) []

/-- MetadataRepository.rebuild_latest_tables: truncate and repopulate the
three materialized tables from the versioned tables.  `entity_latest`
and `extension_latest` use plain INSERT against a stable-id primary key,
so duplicate stable ids abort the statement (modelled as `none`); there
is no pending-target resolution step anywhere in the method. -/
def rebuildLatestTables (db : Db) : Option Db :=
  let el := computeEntityLatest db
  let xl := computeExtensionLatest db
  if ((el.map (fun r => r.stable_id)).eraseDups).length != el.length then none
  else if ((xl.map (fun r => r.stable_id)).eraseDups).length != xl.length then
    none
  else
    some { db with
      entity_latest := el,
      relationship_latest := computeRelationshipLatest db,
      extension_latest := xl }

/-! ## Fast-path loaders over the materialized tables -/

/-- queries._load_extensions_fast. -/
def loadExtensionsFast (db : Db) (origin : String) : List LoadedExt :=
  db.extension_latest.map (fun row =>
    { stable_id := row.stable_id, entity_stable_id := row.entity_stable_id,
      extended_type := row.extended_type, module := row.module,
      file_path := row.file_path, signature := row.signature,
      visibility := row.visibility, constraints := row.constraints,
      conformances := row.conformances,
      member_names := splitMemberNames row.member_names,
      target_type := row.target_type, commit_hash := row.commit_hash,
      origin := origin })

/-- queries._load_entities_fast: entities straight from `entity_latest`
(the view holds no tombstones), extensions attached from
`extension_latest`. -/
def loadEntitiesFast (db : Db) (origin : String) :
    List (String × LoadedEntity) :=
  let dict := db.entity_latest.foldl
    (fun (acc : List (String × LoadedEntity)) row =>
      pyInsert acc row.stable_id
        { entity_id := row.entity_id, stable_id := row.stable_id,
          name := row.name, kind := row.kind, module := row.module,
          file_path := row.file_path, signature := row.signature,
          commit_hash := row.commit_hash,
          member_names := splitMemberNames row.member_names,
          origin := origin, target_type := row.target_type,
          visibility := row.visibility, extensions := [] }) []
  attachExtensions dict (loadExtensionsFast db origin)

/-- queries._load_relationships_fast: relationships straight from
`relationship_latest`. -/
def loadRelationshipsFast (db : Db) (origin : String) : List LoadedRel :=
  db.relationship_latest.map (fun row =>
    { target_name := row.target_name, target_module := row.target_module,
      edge_type := row.edge_type, metadata := row.metadata,
      source_stable_id := row.source_stable_id,
      source_name := row.source_name,
      target_stable_id := row.target_stable_id,
      target_entity_name := some row.target_name,
      origin := origin })

/-! ## Merge, prune, filter and start-node selection -/

/-- queries._merge_entities: feature entities overlay master entities by
stable id, tombstones from either side removing entries. -/
def mergeEntities (master feature : List (String × LoadedEntity))
    (masterDel featureDel : List String) : List (String × LoadedEntity) :=
  let merged := master.filter (fun kv => !masterDel.contains kv.1)
  let merged := feature.foldl
    (fun (acc : List (String × LoadedEntity)) kv =>
      if featureDel.contains kv.1 then acc else pyInsert acc kv.1 kv.2) merged
  featureDel.foldl (fun acc sid => pyPop acc sid) merged

/-- The 5-tuple dedup key type of merged relationships. -/
abbrev RelKey := String × Option String × String × Option String × String

/-- queries._merge_relationships: dict keyed by the 5-tuple, feature
entries overwriting master entries, tombstone keys removed. -/
def mergeRelationships (master feature : List LoadedRel)
    (masterDel featureDel : List RelKey) : List LoadedRel :=
  let d := master.foldl (fun (acc : List (RelKey × LoadedRel)) rel =>
    let k := relationshipKey rel
    if masterDel.contains k then acc else pyInsert acc k rel) []
  let d := feature.foldl (fun (acc : List (RelKey × LoadedRel)) rel =>
    let k := relationshipKey rel
    if featureDel.contains k then acc else pyInsert acc k rel) d
  let d := featureDel.foldl
    (fun (acc : List (RelKey × LoadedRel)) k => pyPop acc k) d
  d.map (fun kv => kv.2)

/-- queries._prune_relationships_for_deleted_entities. -/
def pruneRelationshipsForDeleted (rels : List LoadedRel)
    (deleted : List String) : List LoadedRel :=
  if deleted.isEmpty then rels
  else
    rels.filter (fun rel =>
      !(deleted.contains rel.source_stable_id) &&
      (match rel.target_stable_id with
       | some t => !(t != "" && deleted.contains t)
       | none => true))

/-- queries._matches_target_filter. -/
def matchesTargetFilter (entity : Option LoadedEntity)
    (filterType : String) : Bool :=
  if filterType == "all" then true
  else
    match entity with
    | none => true
    | some e =>
        let et := pyOr e.target_type "app"
        if filterType == "test" then et == "test" else et != "test"

/-- queries._filter_by_target_type. -/
def filterByTargetType (entities : List (String × LoadedEntity))
    (rels : List LoadedRel) (ft : String) :
    List (String × LoadedEntity) × List LoadedRel :=
  if ft == "all" then (entities, rels)
  else
    let filtered := entities.filter (fun kv => matchesTargetFilter (some kv.2) ft)
    let removed := (entities.filter
      (fun kv => !matchesTargetFilter (some kv.2) ft)).map (fun kv => kv.1)
    if removed.isEmpty then (filtered, rels)
    else
      (filtered, rels.filter (fun rel =>
        !(removed.contains rel.source_stable_id) &&
        (match rel.target_stable_id with
         | some t => !(t != "" && removed.contains t)
         | none => true)))

/-- Sort key of queries._pick_entity_by_name (feature origin first, then
module, then stable id). -/
def pickKey (node : LoadedEntity) : Nat × String × String :=
  (if node.origin == "feature" then 0 else 1, node.module, node.stable_id)

/-- Strict lexicographic comparison of pick keys. -/
def pickKeyLt (a b : Nat × String × String) : Bool :=
  a.1 < b.1 ||
  (a.1 == b.1 &&
    (strLt a.2.1 b.2.1 || (a.2.1 == b.2.1 && strLt a.2.2 b.2.2)))

/-- queries._pick_entity_by_name: the first minimal match under the sort
key (equal to sorting stably and taking the head). -/
def pickEntityByName (entities : List (String × LoadedEntity))
    (name : Option String) : Option LoadedEntity :=
  match name with
  | none => none
  | some n =>
      if n = "" then none
      else
        ((entities.map (fun kv => kv.2)).filter (fun e => e.name == n)).foldl
          (fun acc e =>
            match acc with
            | none => some e
            | some b => if pickKeyLt (pickKey e) (pickKey b) then some e else some b)
          none

/-! ## Payload construction (queries._build_graph_payload) -/

/-- A serialized extension inside a node payload. -/
structure ExtP where
  stable_id : String
  visibility : Option String
  file_path : Option String
  signature : Option String
  members : List String
  conformances : List String
  constraints : Option String
  origin : String
  deriving Repr, DecidableEq

/-- A serialized node of the graph payload. -/
structure NodeP where
  name : String
  stable_id : String
  module : String
  kind : String
  target_type : Option String
  visibility : Option String
  file_path : Option String
  signature : Option String
  members : List String
  origin : String
  extensions : Option (List ExtP)
  deriving Repr, DecidableEq

/-- A serialized edge of the graph payload. -/
structure EdgeP where
  type : String
  source : String
  target : String
  metadata : Metadata
  deriving Repr, DecidableEq

/-- The `entity` summary of the payload (queries._summarize_node). -/
structure Summary where
  name : String
  module : String
  kind : String
  stable_id : String
  deriving Repr, DecidableEq

/-- The dict returned by queries._build_graph_payload. -/
structure PayloadCore where
  entity : Summary
  stop_at : Option String
  direction : String
  include_sibling_subgraphs : Bool
  edges : List EdgeP
  nodes : List NodeP
  deriving Repr, DecidableEq

/-- The full graph payload (core plus the two keys added by
queries.get_entity_graph and by the lazy path). -/
structure GraphPayload where
  entity : Summary
  stop_at : Option String
  direction : String
  include_sibling_subgraphs : Bool
  edges : List EdgeP
  nodes : List NodeP
  target_type_filter : String
  max_hops : Option Nat
  deriving Repr, DecidableEq

/-- queries._serialize_node, extension projection. -/
def serializeExtP (ext : LoadedExt) : ExtP :=
  { stable_id := ext.stable_id, visibility := ext.visibility,
    file_path := ext.file_path, signature := ext.signature,
    members := ext.member_names, conformances := ext.conformances,
    constraints := ext.constraints, origin := ext.origin }

/-- queries._serialize_node: the `extensions` key is present only when
the entity has extensions. -/
def serializeNode (node : LoadedEntity) : NodeP :=
  { name := node.name, stable_id := node.stable_id, module := node.module,
    kind := node.kind, target_type := node.target_type,
    visibility := node.visibility, file_path := node.file_path,
    signature := node.signature, members := node.member_names,
    origin := node.origin,
    extensions :=
      if node.extensions.isEmpty then none
      else some (node.extensions.map serializeExtP) }

/-- queries._summarize_node. -/
def summarizeNode (node : LoadedEntity) : Summary :=
  { name := node.name, module := node.module, kind := node.kind,
    stable_id := node.stable_id }

/-- queries._entity_label. -/
def entityLabel (entities : List (String × LoadedEntity))
    (sid : Option String) (fallback : Option String) : String :=
  if pyTruthy sid then
    match sid.bind (fun s => pyGet entities s) with
    | some e => e.name
    | none => pyOr fallback "<unknown>"
  else pyOr fallback "<unknown>"

/-- Edge-type test for creates edges. -/
def isCreates (r : LoadedRel) : Bool := r.edge_type == "creates"

/-- `creates_by_child.get(node, [])` of queries._categorize_relationships
(creates edges indexed by their truthy target stable id, in list
order). -/
def createsByChild (rels : List LoadedRel) (node : String) :
    List LoadedRel :=
  rels.filter (fun r =>
    isCreates r && pyTruthy r.target_stable_id &&
    r.target_stable_id == some node)

/-- `refs_outgoing.get(node, [])`: non-creates edges by source. -/
def refsOutgoing (rels : List LoadedRel) (node : String) : List LoadedRel :=
  rels.filter (fun r => !isCreates r && r.source_stable_id == node)

/-- `incoming_refs.get(node, [])`: non-creates edges by truthy target
stable id (built in _build_graph_payload over the reference edges). -/
def incomingRefs (rels : List LoadedRel) (node : String) : List LoadedRel :=
  rels.filter (fun r =>
    !isCreates r && pyTruthy r.target_stable_id &&
    r.target_stable_id == some node)

/-- The reference-edge list (all non-creates edges, in order). -/
def referenceEdges (rels : List LoadedRel) : List LoadedRel :=
  rels.filter (fun r => !isCreates r)

/-- Deduplication keys of emitted edges: the 4-tuple of reference edges
or the "createdBy"-tagged triple, which can never collide. -/
inductive EdgeKey
  | ref (s : String) (t : Option String) (name : String) (ty : String)
  | createdBy (child : String) (source : String)
  deriving Repr, DecidableEq

/-- Accumulated build state: emitted edges (insertion order), their
dedup keys and the included node set (set-semantics, insertion
ordered). -/
structure BuildSt where
  edges : List EdgeP := []
  keys : List EdgeKey := []
  nodes : List String := []
  deriving Repr, DecidableEq

/-- queries._add_node. -/
def addNode (nodes : List String) (sid : Option String)
    (stopId : Option String) : List String :=
  if !pyTruthy sid then nodes
  else if pyTruthy stopId && sid == stopId then nodes
  else
    match sid with
    | some s => setAdd nodes s
    | none => nodes

/-- queries._append_reference_edge. -/
def appendReferenceEdge (entities : List (String × LoadedEntity))
    (rel : LoadedRel) (stopId : Option String) (st : BuildSt) : BuildSt :=
  let key := EdgeKey.ref rel.source_stable_id rel.target_stable_id
    rel.target_name rel.edge_type
  if st.keys.contains key then st
  else
    let md := pyInsert rel.metadata "origin" rel.origin
    let edge : EdgeP :=
      { type := rel.edge_type,
        source := entityLabel entities (some rel.source_stable_id)
          (some rel.source_name),
        target := entityLabel entities rel.target_stable_id
          (some (pyOr rel.target_entity_name rel.target_name)),
        metadata := md }
    let nodes := addNode st.nodes (some rel.source_stable_id) stopId
    let nodes :=
      if pyTruthy rel.target_stable_id then
        addNode nodes rel.target_stable_id stopId
      else nodes
    { edges := st.edges ++ [edge], keys := st.keys ++ [key], nodes := nodes }

/-- queries._append_created_by_edge. -/
def appendCreatedByEdge (entities : List (String × LoadedEntity))
    (rel : LoadedRel) (stopId : Option String) (st : BuildSt) : BuildSt :=
  let childId := rel.target_stable_id
  let key := EdgeKey.createdBy (pyOr childId rel.target_name)
    rel.source_stable_id
  if st.keys.contains key then st
  else
    let md := pyInsert (pyInsert rel.metadata "origin" rel.origin)
      "creator" rel.source_name
    let edge : EdgeP :=
      { type := "createdBy",
        source := entityLabel entities childId
          (some (pyOr rel.target_entity_name rel.target_name)),
        target := entityLabel entities (some rel.source_stable_id)
          (some rel.source_name),
        metadata := md }
    let nodes :=
      if pyTruthy childId then addNode st.nodes childId stopId else st.nodes
    let nodes := addNode nodes (some rel.source_stable_id) stopId
    { edges := st.edges ++ [edge], keys := st.keys ++ [key], nodes := nodes }

/-- queries._collect_focus_nodes, with explicit fuel (each pop consumes
one unit; a node is enqueued only when newly added to the focus set, so
`rels.length + 2` units always reach the fixpoint). -/
def collectFocusGo (cbc : String → List LoadedRel) (stopId : Option String) :
    Nat → List String → List String → List String
  | 0, _, focus => focus
  | _ + 1, [], focus => focus
  | fuel + 1, nodeId :: queue, focus =>
      if focus.contains nodeId then collectFocusGo cbc stopId fuel queue focus
      else
        let focus1 := focus ++ [nodeId]
        let step := (cbc nodeId).foldl
          (fun (acc : List String × List String) rel =>
            let parentId := rel.source_stable_id
            if parentId != "" && !acc.2.contains parentId then
              let focus2 := acc.2 ++ [parentId]
              if !pyTruthy stopId || some parentId != stopId then
                (acc.1 ++ [parentId], focus2)
              else (acc.1, focus2)
            else acc) (queue, focus1)
        collectFocusGo cbc stopId fuel step.1 step.2

/-- Focus-node collection wrapper: BFS up the creates edges from the
start node. -/
def collectFocusNodes (rels : List LoadedRel) (startId : String)
    (stopId : Option String) : List String :=
  collectFocusGo (createsByChild rels) stopId (rels.length + 2) [startId] []

/-- The display-node set: focus nodes plus both endpoints of any
reference edge touching the focus. -/
def displayNodes (focus : List String) (refEdges : List LoadedRel) :
    List String :=
  refEdges.foldl (fun disp rel =>
    let sourceId := rel.source_stable_id
    let targetId := rel.target_stable_id
    if (sourceId != "" && focus.contains sourceId) ||
        (pyTruthy targetId && focus.contains (targetId.getD "")) then
      let disp := if sourceId != "" then setAdd disp sourceId else disp
      match targetId with
      | some t => if t != "" then setAdd disp t else disp
      | none => disp
    else disp) focus

/-- queries._attach_created_by_edges. -/
def attachCreatedByEdges (entities : List (String × LoadedEntity))
    (rels : List LoadedRel) (display : List String)
    (stopId : Option String) (st : BuildSt) : BuildSt :=
  display.foldl (fun s nodeId =>
    (createsByChild rels nodeId).foldl
      (fun s2 rel => appendCreatedByEdge entities rel stopId s2) s) st

/-- `max_hops is not None and depth >= max_hops`. -/
def hopBudgetReached (maxHops : Option Nat) (depth : Nat) : Bool :=
  match maxHops with
  | some m => decide (depth ≥ m)
  | none => false

/-- queries._append_reference_edges_limited: the queue never grows, so
the recursion is structural on it. -/
def refsLimitedGo (entities : List (String × LoadedEntity))
    (rels : List LoadedRel) (stopId : Option String)
    (maxHops : Option Nat) :
    List (String × Nat) → List String → BuildSt → BuildSt
  | [], _, st => st
  | (nodeId, depth) :: queue, visited, st =>
      if nodeId = "" || visited.contains nodeId then
        refsLimitedGo entities rels stopId maxHops queue visited st
      else
        let visited := visited ++ [nodeId]
        if hopBudgetReached maxHops depth then
          refsLimitedGo entities rels stopId maxHops queue visited st
        else
          let st := (refsOutgoing rels nodeId).foldl
            (fun s rel => appendReferenceEdge entities rel stopId s) st
          let st := (incomingRefs rels nodeId).foldl
            (fun s rel => appendReferenceEdge entities rel stopId s) st
          refsLimitedGo entities rels stopId maxHops queue visited st

/-- queries._append_reference_edges_full, with explicit fuel (each edge
enqueues at most twice across the run, so `2 * rels.length + 2` units
always reach the fixpoint).  Returns the grown display set with the
build state. -/
def refsFullGo (entities : List (String × LoadedEntity))
    (rels : List LoadedRel) (stopId : Option String)
    (maxHops : Option Nat) :
    Nat → List (String × Nat) → List String → List String → BuildSt →
      List String × BuildSt
  | 0, _, _, display, st => (display, st)
  | _ + 1, [], _, display, st => (display, st)
  | fuel + 1, (nodeId, depth) :: queue, visited, display, st =>
      if visited.contains nodeId then
        refsFullGo entities rels stopId maxHops fuel queue visited display st
      else
        let visited := visited ++ [nodeId]
        if hopBudgetReached maxHops depth then
          refsFullGo entities rels stopId maxHops fuel queue visited display st
        else
          let step1 := (refsOutgoing rels nodeId).foldl
            (fun (acc : List (String × Nat) × List String × BuildSt) rel =>
              let st2 := appendReferenceEdge entities rel stopId acc.2.2
              match rel.target_stable_id with
              | some t =>
                  if t != "" && !visited.contains t then
                    (acc.1 ++ [(t, depth + 1)], setAdd acc.2.1 t, st2)
                  else (acc.1, acc.2.1, st2)
              | none => (acc.1, acc.2.1, st2)) (queue, display, st)
          let step2 := (incomingRefs rels nodeId).foldl
            (fun (acc : List (String × Nat) × List String × BuildSt) rel =>
              let st2 := appendReferenceEdge entities rel stopId acc.2.2
              let s := rel.source_stable_id
              if s != "" && !visited.contains s then
                (acc.1 ++ [(s, depth + 1)], setAdd acc.2.1 s, st2)
              else (acc.1, acc.2.1, st2)) step1
          refsFullGo entities rels stopId maxHops fuel step2.1 visited
            step2.2.1 step2.2.2

/-- queries._attach_structural_edges: superclass and conforms edges
whose source is already included are appended unconditionally (the
node set grows as edges append, in loop order). -/
def attachStructuralEdges (entities : List (String × LoadedEntity))
    (refEdges : List LoadedRel) (stopId : Option String)
    (st : BuildSt) : BuildSt :=
  refEdges.foldl (fun s rel =>
    if rel.edge_type == "superclass" || rel.edge_type == "conforms" then
      if rel.source_stable_id != "" &&
          s.nodes.contains rel.source_stable_id then
        appendReferenceEdge entities rel stopId s
      else s
    else s) st

/-- Stable insertion of a node id into a name-sorted list (equal names
keep their original relative order, as Python's stable sort does). -/
def insortByName (entities : List (String × LoadedEntity)) (sid : String) :
    List String → List String
  | [] => [sid]
  | x :: xs =>
      let keyOf := fun s =>
        match pyGet entities s with
        | some e => e.name
        | none => ""
      if strLt (keyOf sid) (keyOf x) then sid :: x :: xs
      else x :: insortByName entities sid xs

/-- Python `sorted(nodes, key=name)`: stable sort by entity name. -/
def sortNodesByName (entities : List (String × LoadedEntity))
    (nodes : List String) : List String :=
  nodes.foldl (fun acc sid => insortByName entities sid acc) []

/-- queries._build_graph_payload. -/
def buildGraphPayload (entities : List (String × LoadedEntity))
    (relationships : List LoadedRel) (startNode : LoadedEntity)
    (stopNode : Option LoadedEntity) (direction : String)
    (includeSiblings : Bool) (maxHops : Option Nat) : PayloadCore :=
  let startId := startNode.stable_id
  let stopId := stopNode.map (fun n => n.stable_id)
  let refEdges := referenceEdges relationships
  let focus := collectFocusNodes relationships startId stopId
  let display := displayNodes focus refEdges
  let st0 : BuildSt := {}
  let st :=
    if includeSiblings then
      let pair :=
        if direction == "downstream" || direction == "both" then
          refsFullGo entities relationships stopId maxHops
            (2 * relationships.length + 2) [(startId, 0)] [] display st0
        else (display, st0)
      attachCreatedByEdges entities relationships pair.1 stopId pair.2
    else
      let st1 := attachCreatedByEdges entities relationships display stopId st0
      if direction == "downstream" || direction == "both" then
        refsLimitedGo entities relationships stopId maxHops
          (focus.map (fun n => (n, 0))) [] st1
      else st1
  let st :=
    if (direction == "upstream" || direction == "both") && !includeSiblings
    then
      { st with
          nodes := focus.foldl (fun ns n =>
            if (match stopId with | none => true | some s => n != s) then
              setAdd ns n
            else ns) st.nodes }
    else st
  let st :=
    if !st.nodes.contains startId &&
        (!pyTruthy stopId || stopId != some startId) then
      { st with nodes := st.nodes ++ [startId] }
    else st
  let st := attachStructuralEdges entities refEdges stopId st
  let visible := st.nodes.filter (fun sid => (pyGet entities sid).isSome)
  let nodePayloads := (sortNodesByName entities visible).filterMap
    (fun sid => (pyGet entities sid).map serializeNode)
  { entity := summarizeNode startNode,
    stop_at := stopNode.map (fun n => n.name),
    direction := direction,
    include_sibling_subgraphs := includeSiblings,
    edges := st.edges,
    nodes := nodePayloads }

/-! ## queries.get_entity_graph -/

/-- Errors raised by the query engine (ValueError messages, plus the dict
KeyError that the Python code would raise on an impossible missing
start entity after filtering). -/
inductive QueryError
  | valueError (msg : String)
  | keyError
  deriving Repr, DecidableEq

/-- queries.get_entity_graph: load (fast path when requested and no
feature store), merge the feature overlay, prune, pick the start and
stop nodes, filter by target type and build the payload. -/
def getEntityGraph (master : Db) (feature : Option Db) (entityName : String)
    (stopName : Option String) (direction : String)
    (includeSiblings : Bool) (maxHops : Option Nat) (targetType : String)
    (useFastPath : Bool) : Except QueryError GraphPayload :=
  let direction := pyLower (pyOr (some direction) "both")
  if !(direction == "upstream" || direction == "downstream" ||
      direction == "both") then
    .error (.valueError "direction must be one of upstream, downstream, both")
  else
    let loaded :=
      if useFastPath && feature.isNone then
        (loadEntitiesFast master "master", ([] : List String),
         loadRelationshipsFast master "master", ([] : List RelKey))
      else
        let pe := loadEntities master "master"
        let pr := loadRelationships master "master"
        (pe.1, pe.2, pr.1, pr.2)
    let masterEntities := loaded.1
    let masterDeleted := loaded.2.1
    let masterRels := loaded.2.2.1
    let masterRelDeleted := loaded.2.2.2
    let featurePair :=
      match feature with
      | some f => loadEntities f "feature"
      | none => ([], [])
    let entities := mergeEntities masterEntities featurePair.1 masterDeleted
      featurePair.2
    let featureRelPair :=
      match feature with
      | some f => loadRelationships f "feature"
      | none => ([], [])
    let relationships := mergeRelationships masterRels featureRelPair.1
      masterRelDeleted featureRelPair.2
    let deletedIds := masterDeleted ++ featurePair.2
    let relationships := pruneRelationshipsForDeleted relationships deletedIds
    match pickEntityByName entities (some entityName) with
    | none =>
        .error (.valueError ("Entity '" ++ entityName ++
          "' was not found in indexed metadata"))
    | some startNode0 =>
        let targetType := pyLower (pyOr (some targetType) "app")
        if !(targetType == "app" || targetType == "test" ||
            targetType == "all") then
          .error (.valueError "targetType must be one of app, test, all")
        else if !matchesTargetFilter (some startNode0) targetType then
          .error (.valueError ("Entity '" ++ entityName ++
            "' does not belong to targetType '" ++ targetType ++ "'"))
        else
          let pair := filterByTargetType entities relationships targetType
          let entities := pair.1
          let relationships := pair.2
          match pyGet entities startNode0.stable_id with
          | none => .error .keyError
          | some startNode =>
              let stopNode :=
                if pyTruthy stopName then pickEntityByName entities stopName
                else none
              let core := buildGraphPayload entities relationships startNode
                stopNode direction includeSiblings maxHops
              let payload : GraphPayload :=
                { entity := core.entity, stop_at := core.stop_at,
                  direction := core.direction,
                  include_sibling_subgraphs := core.include_sibling_subgraphs,
                  edges := core.edges, nodes := core.nodes,
                  target_type_filter := targetType, max_hops := maxHops }
              .ok payload

/-! ## Lazy loading path (queries.get_entity_graph_lazy) -/

/-- queries._load_extensions_for_entity: extensions of one entity from
`extension_latest`.  This query does not select the extended type or
module columns (they are never read downstream); the embedded record
carries the known entity stable id and empty strings for the two
unselected fields. -/
def loadExtensionsForEntity (db : Db) (entityStableId : String)
    (origin : String) : List LoadedExt :=
  (db.extension_latest.filter
      (fun row => row.entity_stable_id == entityStableId)).map (fun row =>
    { stable_id := row.stable_id, entity_stable_id := entityStableId,
      extended_type := "", module := "",
      file_path := row.file_path, signature := row.signature,
      visibility := row.visibility, constraints := row.constraints,
      conformances := row.conformances,
      member_names := splitMemberNames row.member_names,
      target_type := row.target_type, commit_hash := row.commit_hash,
      origin := origin })

/-- Convert one `entity_latest` row to a loaded entity with its
extensions (shared shape of the three lazy single-entity loaders). -/
def entityOfLatestRow (db : Db) (row : EntityLatestRow) (origin : String) :
    LoadedEntity :=
  { entity_id := row.entity_id, stable_id := row.stable_id,
    name := row.name, kind := row.kind, module := row.module,
    file_path := row.file_path, signature := row.signature,
    commit_hash := row.commit_hash,
    member_names := splitMemberNames row.member_names,
    origin := origin, target_type := row.target_type,
    visibility := row.visibility,
    extensions := loadExtensionsForEntity db row.stable_id origin }

/-- queries._load_single_entity_by_name (`WHERE name = ? LIMIT 1`, first
row in canonical scan order). -/
def loadSingleEntityByName (db : Db) (name : String) (origin : String) :
    Option LoadedEntity :=
  (db.entity_latest.find? (fun row => row.name == name)).map
    (fun row => entityOfLatestRow db row origin)

/-- queries._load_single_entity_by_stable_id: feature store first, then
master. -/
def loadSingleEntityByStableId (master : Db) (feature : Option Db)
    (stableId : String) : Option LoadedEntity :=
  let fromFeature := feature.bind (fun f =>
    (f.entity_latest.find? (fun row => row.stable_id == stableId)).map
      (fun row => entityOfLatestRow f row "feature"))
  match fromFeature with
  | some e => some e
  | none =>
      (master.entity_latest.find? (fun row => row.stable_id == stableId)).map
        (fun row => entityOfLatestRow master row "master")

/-- The direction filter of queries._load_relationships_for_entity. -/
def lazyDirectionMatch (direction : String) (stableId : String)
    (row : RelLatestRow) : Bool :=
  if direction == "downstream" then row.source_stable_id == stableId
  else if direction == "upstream" then row.target_stable_id == some stableId
  else
    row.source_stable_id == stableId || row.target_stable_id == some stableId

/-- The cross-store dedup key of queries._load_relationships_for_entity. -/
abbrev LazyRelKey := String × Option String × String × String

/-- queries._load_relationships_for_entity: feature rows overlay master
rows under a shared seen-key set. -/
def loadRelationshipsForEntity (master : Db) (feature : Option Db)
    (stableId : String) (direction : String) : List LoadedRel :=
  let addFrom := fun (acc : List LazyRelKey × List LoadedRel) (db : Db)
      (origin : String) =>
    (db.relationship_latest.filter
        (lazyDirectionMatch direction stableId)).foldl
      (fun (a : List LazyRelKey × List LoadedRel) row =>
        let key : LazyRelKey := (row.source_stable_id, row.target_stable_id,
          row.target_name, row.edge_type)
        if a.1.contains key then a
        else
          let rel : LoadedRel :=
            { target_name := row.target_name,
              target_module := row.target_module,
              edge_type := row.edge_type, metadata := row.metadata,
              source_stable_id := row.source_stable_id,
              source_name := row.source_name,
              target_stable_id := row.target_stable_id,
              target_entity_name := some row.target_name,
              origin := origin }
          (a.1 ++ [key], a.2 ++ [rel])) acc
  let acc0 : List LazyRelKey × List LoadedRel := ([], [])
  let acc1 :=
    match feature with
    | some f => addFrom acc0 f "feature"
    | none => acc0
  (addFrom acc1 master "master").2

/-- Stable insertion of a loaded entity into a name-sorted list. -/
def insortEntityByName (e : LoadedEntity) :
    List LoadedEntity → List LoadedEntity
  | [] => [e]
  | x :: xs =>
      if strLt e.name x.name then e :: x :: xs
      else x :: insortEntityByName e xs

/-- The lazy BFS loop of queries.get_entity_graph_lazy, with explicit
fuel (each stable id enters the queue at most once, so the entity count
of both stores plus the queue seed always reaches the fixpoint). -/
def lazyGo (master : Db) (feature : Option Db) (direction : String)
    (targetType : String) (maxHops : Option Nat) (stopId : Option String) :
    Nat → List (String × Nat × String) →
      List (String × LoadedEntity) → List LazyRelKey → List EdgeP →
      List (String × LoadedEntity) × List EdgeP
  | 0, _, visited, _, edges => (visited, edges)
  | _ + 1, [], visited, _, edges => (visited, edges)
  | fuel + 1, (currentId, depth, _) :: queue, visited, seenKeys, edges =>
      if hopBudgetReached maxHops depth then
        lazyGo master feature direction targetType maxHops stopId fuel queue
          visited seenKeys edges
      else if stopId == some currentId then
        lazyGo master feature direction targetType maxHops stopId fuel queue
          visited seenKeys edges
      else
        let rels := loadRelationshipsForEntity master feature currentId
          direction
        let step := rels.foldl
          (fun (acc : List (String × Nat × String) ×
              List (String × LoadedEntity) × List LazyRelKey × List EdgeP)
              rel =>
            let queueA := acc.1
            let visitedA := acc.2.1
            let seenA := acc.2.2.1
            let edgesA := acc.2.2.2
            let targetId := rel.target_stable_id
            let sourceId := rel.source_stable_id
            let key : LazyRelKey := (sourceId, targetId, rel.target_name,
              rel.edge_type)
            if seenA.contains key then acc
            else
              let seenA := seenA ++ [key]
              let md := pyInsert rel.metadata "origin" rel.origin
              let edge : EdgeP :=
                { type := rel.edge_type,
                  source := pyOr (some rel.source_name) sourceId,
                  target := pyOr rel.target_entity_name rel.target_name,
                  metadata := md }
              let edgesA := edgesA ++ [edge]
              let pair1 :=
                match targetId with
                | some t =>
                    if t != "" && (pyGet visitedA t).isNone &&
                        stopId != some t then
                      match loadSingleEntityByStableId master feature t with
                      | some ent =>
                          if matchesTargetFilter (some ent) targetType then
                            (queueA ++ [(t, depth + 1, "downstream")],
                             pyInsert visitedA t ent)
                          else (queueA, visitedA)
                      | none => (queueA, visitedA)
                    else (queueA, visitedA)
                | none => (queueA, visitedA)
              let pair2 :=
                if (direction == "upstream" || direction == "both") &&
                    (pyGet pair1.2 sourceId).isNone then
                  if stopId != some sourceId then
                    match loadSingleEntityByStableId master feature sourceId
                    with
                    | some ent =>
                        if matchesTargetFilter (some ent) targetType then
                          (pair1.1 ++ [(sourceId, depth + 1, "upstream")],
                           pyInsert pair1.2 sourceId ent)
                        else pair1
                    | none => pair1
                  else pair1
                else pair1
              (pair2.1, pair2.2, seenA, edgesA)) (queue, visited, seenKeys,
                edges)
        lazyGo master feature direction targetType maxHops stopId fuel
          step.1 step.2.1 step.2.2.1 step.2.2.2

/-- queries.get_entity_graph_lazy. -/
def getEntityGraphLazy (master : Db) (feature : Option Db)
    (entityName : String) (stopName : Option String) (direction : String)
    (maxHops : Option Nat) (targetType : String) :
    Except QueryError GraphPayload :=
  let direction := pyLower (pyOr (some direction) "both")
  if !(direction == "upstream" || direction == "downstream" ||
      direction == "both") then
    .error (.valueError "direction must be one of upstream, downstream, both")
  else
    let targetType := pyLower (pyOr (some targetType) "app")
    if !(targetType == "app" || targetType == "test" || targetType == "all")
    then .error (.valueError "targetType must be one of app, test, all")
    else
      let startFromMaster := loadSingleEntityByName master entityName "master"
      let startNode :=
        match startFromMaster with
        | some e => some e
        | none => feature.bind
            (fun f => loadSingleEntityByName f entityName "feature")
      match startNode with
      | none =>
          .error (.valueError ("Entity '" ++ entityName ++
            "' was not found in indexed metadata"))
      | some startNode =>
          if !matchesTargetFilter (some startNode) targetType then
            .error (.valueError ("Entity '" ++ entityName ++
              "' does not belong to targetType '" ++ targetType ++ "'"))
          else
            let stopNode :=
              match stopName with
              | some sn =>
                  if sn != "" then
                    match loadSingleEntityByName master sn "master" with
                    | some e => some e
                    | none => feature.bind
                        (fun f => loadSingleEntityByName f sn "feature")
                  else none
              | none => none
            let stopId := stopNode.map (fun n => n.stable_id)
            let featureRelLen :=
              match feature with
              | some f => f.relationship_latest.length
              | none => 0
            let fuel := 2 * (master.relationship_latest.length +
              featureRelLen) + master.entity_latest.length + 2
            let result := lazyGo master feature direction targetType maxHops
              stopId fuel [(startNode.stable_id, 0, "start")]
              [(startNode.stable_id, startNode)] [] []
            let nodeList := (result.1.map (fun kv => kv.2)).foldl
              (fun acc e => insortEntityByName e acc) []
            let nodePayloads := (nodeList.filter
              (fun e => stopId != some e.stable_id)).map serializeNode
            let payload : GraphPayload :=
              { entity := summarizeNode startNode,
                stop_at := stopNode.map (fun n => n.name),
                direction := direction,
                include_sibling_subgraphs := false,
                edges := result.2,
                nodes := nodePayloads,
                target_type_filter := targetType,
                max_hops := maxHops }
            .ok payload

/-! ## Branch-aware facade (src/graphrag/db/query_service.py)

Python call semantics: a keyword argument that does not name a parameter
of the callee (whose definition has no catch-all `**kwargs`) makes the
call raise TypeError before the callee body runs. -/

/-- The parameter list of queries.get_entity_graph, copied from its
definition. -/
def getEntityGraphParams : List String :=
  ["master_conn", "feature_conn", "entity_name", "stop_name", "direction",
   "include_sibling_subgraphs", "max_hops", "target_type", "use_fast_path"]

/-- The keyword arguments QueryService.get_graph passes in its call to
queries.get_entity_graph (the two connections are passed
positionally). -/
def getGraphForwardedKwargs : List String :=
  ["entity_name", "stop_name", "direction", "include_sibling_subgraphs",
   "max_hops", "target_type", "stop_at_module_boundary"]

/-- First keyword of a call that the callee's parameter list does not
bind (the keyword Python's TypeError reports). -/
def firstUnexpectedKeyword (params kwargs : List String) : Option String :=
  kwargs.find? (fun kw => !params.contains kw)

/-- Errors surfaced by QueryService.get_graph: the TypeError of a bad
keyword binding, or an error of the query engine itself. -/
inductive ServiceError
  | typeErrorUnexpectedKeyword (kw : String)
  | query (e : QueryError)
  deriving Repr, DecidableEq

/-- The arguments of one QueryService.get_graph invocation.  The store
connections are abstracted as the store contents; `useFeature` is the
outcome of the `_should_use_feature_db` branch check. -/
structure GetGraphArgs where
  masterDb : Db
  useFeature : Bool
  featureDb : Db
  entity_name : String
  stop_name : Option String := none
  direction : String := "both"
  include_sibling_subgraphs : Bool := false
  max_hops : Option Nat := none
  target_type : String := "app"
  stop_at_module_boundary : Bool := false

/-- QueryService.get_graph: open the master store, optionally the
feature store, then call queries.get_entity_graph forwarding the
keyword arguments listed above — including `stop_at_module_boundary`,
which the callee's parameter list does not contain. -/
def qsGetGraph (args : GetGraphArgs) : Except ServiceError GraphPayload :=
  match firstUnexpectedKeyword getEntityGraphParams getGraphForwardedKwargs
  with
  | some kw => .error (.typeErrorUnexpectedKeyword kw)
  | none =>
      match getEntityGraph args.masterDb
          (if args.useFeature then some args.featureDb else none)
          args.entity_name args.stop_name args.direction
          args.include_sibling_subgraphs args.max_hops args.target_type
          false with
      | .ok p => .ok p
      | .error e => .error (.query e)

/-! ## Indexer services (src/graphrag/indexer/service.py and
src/graphrag/indexer/feature_service.py)

The git worktree reader is abstracted as the pre-parsed content of the
files it yields: each file comes with the ParsedSource the Swift parser
produces for its blob content (none models missing/empty content or a
deletion). -/

/-- IndexerService.initialize: record HEAD as a master commit, then for
every tracked Swift file persist the parsed entities and relationships.
The method body contains no call to rebuild_latest_tables; it ends with
the per-file loop and returns the HEAD hash. -/
def initializeRun (db : Db) (headHash : String) (parentHash : Option String)
    (defaultBranch : String)
    (trackedFiles : List (String × Option ParsedSource)) : Db × String :=
  let pair := recordCommit db headHash parentHash defaultBranch true
  let commitId := pair.2
  let db := trackedFiles.foldl (fun (d : Db) file =>
    match file.2 with
    | none => d
    | some parsed =>
        let pe := persistEntities d commitId parsed.entities
        persistRelationships pe.1 commitId pe.2 parsed.relationships) pair.1
  (db, headHash)

/-- The master indexer's per-file step (shared by initialize and
update): persist the parsed entities, then the parsed relationships
under the returned id map. -/
def masterIndexFile (db : Db) (commitId : Nat) (parsed : ParsedSource) : Db :=
  let pe := persistEntities db commitId parsed.entities
  persistRelationships pe.1 commitId pe.2 parsed.relationships

/-- Runtime errors of the feature indexing pass. -/
inductive PyRunError
  | typeErrorNotIterable
  deriving Repr, DecidableEq

/-- The feature-branch indexer's per-file step inside
FeatureBranchIndexer._index_branch_commits: a deleted file is
tombstoned; otherwise the ParsedSource returned by the parser is passed
whole to persist_entities, whose `for record in records` loop raises
TypeError because ParsedSource is not iterable.  The method contains no
persist_relationships call. -/
def featureIndexFile (db : Db) (commitId : Nat) (path : String)
    (content : Option ParsedSource) : Except PyRunError Db :=
  match content with
  | none => .ok (markEntitiesDeletedForFile db path commitId)
  | some parsed =>
      match pyIterEntityRecords parsed with
      | none => .error .typeErrorNotIterable
      | some records => .ok (persistEntities db commitId records).1

/-- FeatureBranchIndexer._index_branch_commits, one commit of the
anchor..HEAD range: record the commit, then process each changed Swift
file. -/
def featureIndexCommit (db : Db) (commitHash : String)
    (parentHash : Option String) (branch : String)
    (files : List (String × Option ParsedSource)) : Except PyRunError Db :=
  let pair := recordCommit db commitHash parentHash branch false
  files.foldlM (fun (d : Db) file =>
    featureIndexFile d pair.2 file.1 file.2) pair.1

/-! ## Concrete stores used by the claim theorems -/

/-- A single-struct Swift file as the parser renders it (scenario S1). -/
def greeterRecord : EntityRecord :=
  { name := "Greeter", kind := "struct", module := "Sources",
    language := "swift", file_path := "Sources/Greeter.swift",
    start_line := 1, end_line := 1, signature := "struct Greeter",
    code := "struct Greeter {}", stable_id := "sid-greeter" }

/-- The HEAD hash of the single-commit repository. -/
def c2HeadHash : String := "aaaaaaaaaaaaaaaaaaaaaaaaaaaaaaaaaaaaaaaa"

/-- The tracked Swift files at HEAD for the initialize scenario. -/
def c2TrackedFiles : List (String × Option ParsedSource) :=
  [("Sources/Greeter.swift", some { entities := [greeterRecord] })]

/-- The store and return value initialize produces on that repository. -/
def c2Run : Db × String := initializeRun {} c2HeadHash none "master" c2TrackedFiles

/-- An assembly class whose file is indexed before its target. -/
def assemblyRec : EntityRecord :=
  { name := "FeatureAssembly", kind := "class", module := "FeatureModule",
    language := "swift", file_path := "FeatureModule/FeatureAssembly.swift",
    start_line := 1, end_line := 3, signature := "class FeatureAssembly",
    code := "class FeatureAssembly {}", stable_id := "sid-assembly" }

/-- The presenter the assembly forward-references. -/
def presenterRec : EntityRecord :=
  { name := "FeaturePresenter", kind := "class", module := "FeatureModule",
    language := "swift", file_path := "FeatureModule/FeaturePresenter.swift",
    start_line := 1, end_line := 3, signature := "class FeaturePresenter",
    code := "class FeaturePresenter {}", stable_id := "sid-presenter" }

/-- Scenario S7: the assembly and its creates edge are persisted before
the presenter exists, so the edge is stored with a null target; the
presenter is persisted afterwards in the same commit. -/
def c4Db : Db :=
  let p0 := recordCommit {} "c4commit" none "master" true
  let p1 := persistEntities p0.1 p0.2 [assemblyRec]
  let d2 := persistRelationships p1.1 p0.2 p1.2
    [{ source_stable_id := "sid-assembly", target_name := "FeaturePresenter",
       edge_type := "creates", target_module := some "FeatureModule" }]
  (persistEntities d2 p0.2 [presenterRec]).1

/-- A target entity living in a different module than the advisory
target_module recorded on the edge. -/
def serviceRec : EntityRecord :=
  { name := "ISimpleService", kind := "protocol", module := "SimpleCoreIO",
    language := "swift", file_path := "SimpleCoreIO/ISimpleService.swift",
    start_line := 1, end_line := 2, signature := "protocol ISimpleService",
    code := "protocol ISimpleService {}", stable_id := "sid-service" }

/-- Both entities persisted before the relationship. -/
def c5Setup : Db × List (String × Nat) :=
  let p0 := recordCommit {} "c5commit" none "master" true
  persistEntities p0.1 p0.2 [presenterRec, serviceRec]

/-- The cross-module edge records target_module = the source's module,
so the exact (name, module) lookup finds nothing. -/
def c5Db : Db :=
  persistRelationships c5Setup.1 1 c5Setup.2
    [{ source_stable_id := "sid-presenter", target_name := "ISimpleService",
       edge_type := "strongReference", target_module := some "FeatureModule" }]

/-- A class whose only edge is a structural conforms edge. -/
def entA : EntityRecord :=
  { name := "EntityA", kind := "class", module := "M", language := "swift",
    file_path := "Sources/A.swift", start_line := 1, end_line := 2,
    signature := "class EntityA", code := "class EntityA {}",
    stable_id := "sidA" }

/-- The protocol EntityA conforms to. -/
def entP : EntityRecord :=
  { name := "ProtoP", kind := "protocol", module := "M", language := "swift",
    file_path := "Sources/P.swift", start_line := 1, end_line := 2,
    signature := "protocol ProtoP", code := "protocol ProtoP {}",
    stable_id := "sidP" }

/-- A store with a single conforms edge EntityA -> ProtoP, views
rebuilt. -/
def c6Db : Db :=
  let p0 := recordCommit {} "c6commit" none "master" true
  let p1 := persistEntities p0.1 p0.2 [entA, entP]
  let d := persistRelationships p1.1 p0.2 p1.2
    [{ source_stable_id := "sidA", target_name := "ProtoP",
       edge_type := "conforms", target_module := some "M" }]
  match rebuildLatestTables d with
  | some r => r
  | none => d

/-- A second concrete class. -/
def entB : EntityRecord :=
  { name := "EntityB", kind := "class", module := "M", language := "swift",
    file_path := "Sources/B.swift", start_line := 1, end_line := 2,
    signature := "class EntityB", code := "class EntityB {}",
    stable_id := "sidB" }

/-- A store with a single creates edge EntityA -> EntityB, views
rebuilt. -/
def c7Db : Db :=
  let p0 := recordCommit {} "c7commit" none "master" true
  let p1 := persistEntities p0.1 p0.2 [entA, entB]
  let d := persistRelationships p1.1 p0.2 p1.2
    [{ source_stable_id := "sidA", target_name := "EntityB",
       edge_type := "creates", target_module := some "M" }]
  match rebuildLatestTables d with
  | some r => r
  | none => d

/-- The strongReference record of the feature-indexer scenario. -/
def relAB : RelationshipRecord :=
  { source_stable_id := "sidA", target_name := "EntityB",
    edge_type := "strongReference", target_module := some "M" }

/-- The ParsedSource of a feature-branch file declaring two classes and
one reference between them. -/
def graphParsed : ParsedSource :=
  { entities := [entA, entB], relationships := [relAB] }

/-! ## Claim theorems -/

/-- C1: every invocation of QueryService.get_graph raises a TypeError
before producing a payload, because the call always forwards the
keyword argument `stop_at_module_boundary` to queries.get_entity_graph,
whose parameter list does not include it. -/
theorem C1_get_graph_always_raises_type_error (args : GetGraphArgs) :
    qsGetGraph args =
      Except.error
        (ServiceError.typeErrorUnexpectedKeyword "stop_at_module_boundary") :=
  rfl

/-- C2 (code bug): IndexerService.initialize returns the HEAD hash, but
its body contains no rebuild_latest_tables call, so after initializing a
repository whose HEAD holds one Swift file declaring the struct Greeter,
`entity_latest` is empty even though the versioned tables hold the
struct; running the rebuild that the spec (and the integration tests)
expect as the final step would produce exactly the Greeter row. -/
theorem C2_initialize_never_rebuilds_latest_tables :
    c2Run.2 = c2HeadHash ∧
    c2Run.1.entity_latest = [] ∧
    (c2Run.1.entity_versions.map (fun v => v.entity_id)) = [1] ∧
    ((rebuildLatestTables c2Run.1).map
      (fun d => d.entity_latest.map (fun r => (r.stable_id, r.name)))) =
      some [("sid-greeter", "Greeter")] := by
  refine ⟨rfl, rfl, rfl, rfl⟩

/-- C3 (code bug): the feature-branch indexer does not process changed
files as the master indexer does.  On a commit changing one parsed
Swift file, the embedded _index_branch_commits step fails with the
TypeError of iterating the ParsedSource that it passes whole to
persist_entities, and it contains no persist_relationships call; the
master per-file step on the same parsed source persists the
strongReference edge. -/
theorem C3_feature_indexer_diverges_from_master :
    featureIndexCommit {} "fcommit" none "feature/graph"
        [("Sources/Graph.swift", some graphParsed)] =
      Except.error PyRunError.typeErrorNotIterable ∧
    (((masterIndexFile (recordCommit {} "mcommit" none "master" true).1 1
          graphParsed).entity_relationships.filter
        (fun r => !r.is_deleted)).map
      (fun r => (r.edge_type, r.target_name, r.target_entity_id))) =
      [("strongReference", "EntityB", some 2)] := by
  refine ⟨rfl, rfl⟩

/-- C4 (code bug): rebuild_latest_tables contains no pending-target
resolution step.  In the forward-reference store the live creates edge
has a null target; its target becomes resolvable once the presenter is
persisted (the (name, module) lookup succeeds), yet after the rebuild
the edge sits in relationship_latest with a null target_stable_id. -/
theorem C4_rebuild_does_not_resolve_pending_targets :
    ((c4Db.entity_relationships.filter (fun r => !r.is_deleted)).map
      (fun r => (r.target_name, r.target_entity_id))) =
      [("FeaturePresenter", none)] ∧
    lookupEntityId c4Db "FeaturePresenter" (some "FeatureModule") = some 2 ∧
    ((rebuildLatestTables c4Db).map
      (fun d => d.relationship_latest.map
        (fun r => (r.source_stable_id, r.target_stable_id, r.target_name)))) =
      some [("sid-assembly", none, "FeaturePresenter")] := by
  refine ⟨rfl, rfl, rfl⟩

/-- C5 (code bug): persist_relationships resolves a target with a single
exact (name, module) lookup and never falls back to the name-only
lookup.  With the target entity stored under a different module, the
exact lookup fails and the edge is inserted with a null target, even
though the name-only lookup (the documented fallback) finds the
entity. -/
theorem C5_persist_relationships_has_no_name_fallback :
    ((c5Db.entity_relationships.filter (fun r => !r.is_deleted)).map
      (fun r => (r.target_name, r.target_entity_id))) =
      [("ISimpleService", none)] ∧
    lookupEntityId c5Setup.1 "ISimpleService" (some "FeatureModule") = none ∧
    lookupEntityId c5Setup.1 "ISimpleService" none = some 2 := by
  refine ⟨rfl, rfl, rfl⟩

/-! ## Idempotence of the rebuild (C10) -/

/-- The rebuild computation reads only the versioned tables: replacing
the three materialized tables leaves `computeEntityLatest` unchanged. -/
theorem computeEntityLatest_views_irrel (s : Db) (el : List EntityLatestRow)
    (rl : List RelLatestRow) (xl : List ExtLatestRow) :
    computeEntityLatest
      { s with
          entity_latest := el, relationship_latest := rl,
          extension_latest := xl } = computeEntityLatest s := rfl

/-- As above for `computeRelationshipLatest`. -/
theorem computeRelationshipLatest_views_irrel (s : Db)
    (el : List EntityLatestRow) (rl : List RelLatestRow)
    (xl : List ExtLatestRow) :
    computeRelationshipLatest
      { s with
          entity_latest := el, relationship_latest := rl,
          extension_latest := xl } = computeRelationshipLatest s := rfl

/-- As above for `computeExtensionLatest`. -/
theorem computeExtensionLatest_views_irrel (s : Db)
    (el : List EntityLatestRow) (rl : List RelLatestRow)
    (xl : List ExtLatestRow) :
    computeExtensionLatest
      { s with
          entity_latest := el, relationship_latest := rl,
          extension_latest := xl } = computeExtensionLatest s := rfl

/-- N successive rebuild calls (failure propagates). -/
def rebuildIter : Nat → Db → Option Db
  | 0, db => some db
  | n + 1, db => (rebuildLatestTables db).bind (rebuildIter n)

/-- A successful rebuild result is a fixed point of the rebuild. -/
theorem rebuild_fixpoint {s t : Db} (h : rebuildLatestTables s = some t) :
    rebuildLatestTables t = some t := by
  unfold rebuildLatestTables at h
  simp only [] at h
  split at h
  · exact Option.noConfusion h
  next h1 =>
    split at h
    · exact Option.noConfusion h
    next h2 =>
      have ht : ({ s with
          entity_latest := computeEntityLatest s,
          relationship_latest := computeRelationshipLatest s,
          extension_latest := computeExtensionLatest s } : Db) = t :=
        Option.some.inj h
      subst ht
      unfold rebuildLatestTables
      simp only [computeEntityLatest_views_irrel,
        computeRelationshipLatest_views_irrel,
        computeExtensionLatest_views_irrel]
      simp only [h1, h2, if_false]
      rfl

/-- Iterating from a fixed point stays there. -/
theorem rebuildIter_fixpoint {t : Db} (h : rebuildLatestTables t = some t) :
    ∀ n, rebuildIter n t = some t := by
  intro n
  induction n with
  | zero => rfl
  | succ n ih => simp [rebuildIter, h, ih]

/-- C10: rebuild_latest_tables is idempotent — when a rebuild of a
state succeeds, running it N times (N >= 1) leaves the entity_latest,
relationship_latest and extension_latest tables with exactly the content
a single run produces. -/
theorem C10_rebuild_latest_tables_idempotent {s t : Db} (n : Nat)
    (hn : 1 ≤ n) (h : rebuildLatestTables s = some t) :
    (rebuildIter n s).map
        (fun d => (d.entity_latest, d.relationship_latest,
          d.extension_latest)) =
      (rebuildIter 1 s).map
        (fun d => (d.entity_latest, d.relationship_latest,
          d.extension_latest)) := by
  obtain ⟨m, rfl⟩ : ∃ m, n = m + 1 := ⟨n - 1, by omega⟩
  have hfix := rebuild_fixpoint h
  have h1 : rebuildIter 1 s = some t := by simp [rebuildIter, h]
  have hm : rebuildIter (m + 1) s = some t := by
    simp [rebuildIter, h, rebuildIter_fixpoint hfix]
  rw [hm, h1]

/-- C10 witness: the empty store rebuilds to itself, and two runs give
the same latest tables as one. -/
theorem C10_rebuild_latest_tables_idempotent_witness :
    (rebuildIter 2 ({} : Db)).map
        (fun d => (d.entity_latest, d.relationship_latest,
          d.extension_latest)) =
      (rebuildIter 1 ({} : Db)).map
        (fun d => (d.entity_latest, d.relationship_latest,
          d.extension_latest)) :=
  C10_rebuild_latest_tables_idempotent 2 (by decide) (rfl)

/-! ## Association-list dictionary lemmas -/

theorem pyGet_cons {α β : Type} [BEq α] (kv : α × β) (d : List (α × β))
    (k : α) :
    pyGet (kv :: d) k = if kv.1 == k then some kv.2 else pyGet d k := by
  by_cases h : kv.1 == k <;> simp [pyGet, List.find?_cons, h]

theorem pyGet_pyInsert_self {α β : Type} [BEq α] [LawfulBEq α]
    (d : List (α × β)) (k : α) (v : β) :
    pyGet (pyInsert d k v) k = some v := by
  induction d with
  | nil => simp [pyInsert, pyGet]
  | cons kv rest ih =>
      by_cases h : kv.1 == k
      · simp [pyInsert, h, pyGet_cons]
      · simp [pyInsert, h, pyGet_cons, ih]

theorem pyGet_pyInsert_ne {α β : Type} [BEq α] [LawfulBEq α]
    (d : List (α × β)) (k k' : α) (v : β) (hne : k' ≠ k) :
    pyGet (pyInsert d k v) k' = pyGet d k' := by
  have hbeq : (k == k') = false := by
    simp only [beq_eq_false_iff_ne]
    exact fun h => hne h.symm
  induction d with
  | nil => simp [pyInsert, pyGet_cons, hbeq, pyGet]
  | cons kv rest ih =>
      by_cases h : kv.1 == k
      · have hk : kv.1 = k := eq_of_beq h
        simp [pyInsert, h, pyGet_cons, hbeq, hk]
      · simp [pyInsert, h, pyGet_cons, ih]

theorem mem_pyInsert {α β : Type} [BEq α] {kv : α × β} {d : List (α × β)}
    {k : α} {v : β} (h : kv ∈ pyInsert d k v) : kv ∈ d ∨ kv = (k, v) := by
  induction d with
  | nil => simpa [pyInsert] using h
  | cons kv0 rest ih =>
      by_cases h0 : kv0.1 == k
      · simp only [pyInsert, h0, if_pos] at h
        rcases List.mem_cons.mp h with h1 | h1
        · exact Or.inr h1
        · exact Or.inl (List.mem_cons_of_mem _ h1)
      · simp only [pyInsert, h0] at h
        rcases List.mem_cons.mp h with h1 | h1
        · exact Or.inl (h1 ▸ List.mem_cons_self _ _)
        · rcases ih h1 with h2 | h2
          · exact Or.inl (List.mem_cons_of_mem _ h2)
          · exact Or.inr h2

theorem keys_mem_pyInsert {α β : Type} [BEq α] {a : α} {d : List (α × β)}
    {k : α} {v : β} (h : a ∈ (pyInsert d k v).map Prod.fst) :
    a ∈ d.map Prod.fst ∨ a = k := by
  rcases List.mem_map.mp h with ⟨kv, hmem, hfst⟩
  rcases mem_pyInsert hmem with h1 | h1
  · exact Or.inl (hfst ▸ List.mem_map_of_mem Prod.fst h1)
  · subst h1
    exact Or.inr hfst.symm

theorem keysNodup_pyInsert {α β : Type} [BEq α] [LawfulBEq α]
    {d : List (α × β)} (k : α) (v : β) (h : (d.map Prod.fst).Nodup) :
    ((pyInsert d k v).map Prod.fst).Nodup := by
  induction d with
  | nil => simp [pyInsert]
  | cons kv0 rest ih =>
      rw [List.map_cons, List.nodup_cons] at h
      by_cases h0 : kv0.1 == k
      · have hins : pyInsert (kv0 :: rest) k v = (k, v) :: rest := by
          simp [pyInsert, h0]
        have hk : kv0.1 = k := eq_of_beq h0
        rw [hins, List.map_cons, List.nodup_cons]
        exact ⟨hk ▸ h.1, h.2⟩
      · have hins : pyInsert (kv0 :: rest) k v = kv0 :: pyInsert rest k v := by
          simp [pyInsert, h0]
        have hk : kv0.1 ≠ k := by simpa using h0
        rw [hins, List.map_cons, List.nodup_cons]
        refine ⟨fun hmem => ?_, ih h.2⟩
        rcases keys_mem_pyInsert hmem with h1 | h1
        · exact h.1 h1
        · exact hk h1

theorem pyGet_mem {α β : Type} [BEq α] [LawfulBEq α] {d : List (α × β)}
    {k : α} {v : β} (h : pyGet d k = some v) : (k, v) ∈ d := by
  induction d with
  | nil => simp [pyGet] at h
  | cons kv rest ih =>
      rw [pyGet_cons] at h
      by_cases h0 : kv.1 == k
      · rw [if_pos h0] at h
        have hk : kv.1 = k := eq_of_beq h0
        have hv : kv.2 = v := Option.some.inj h
        have hkv : kv = (k, v) := by
          rw [← hk, ← hv]
        rw [← hkv]
        exact List.mem_cons_self _ _
      · rw [if_neg (by simpa using h0)] at h
        exact List.mem_cons_of_mem _ (ih h)

theorem pyGet_of_mem_nodup {α β : Type} [BEq α] [LawfulBEq α]
    {d : List (α × β)} {k : α} {v : β} (hnodup : (d.map Prod.fst).Nodup)
    (h : (k, v) ∈ d) : pyGet d k = some v := by
  induction d with
  | nil => simp at h
  | cons kv rest ih =>
      rw [List.map_cons, List.nodup_cons] at hnodup
      rcases List.mem_cons.mp h with h1 | h1
      · rw [← h1, pyGet_cons]
        simp
      · rw [pyGet_cons]
        have hk : kv.1 ≠ k := by
          intro hkk
          exact hnodup.1 (hkk ▸ List.mem_map_of_mem Prod.fst h1)
        rw [if_neg (by simpa using hk)]
        exact ih hnodup.2 h1

theorem pyGet_pyPop {α β : Type} [BEq α] [LawfulBEq α] (d : List (α × β))
    (x k : α) :
    pyGet (pyPop d x) k = if x == k then none else pyGet d k := by
  induction d with
  | nil => by_cases h : x == k <;> simp [pyPop, pyGet, h]
  | cons kv rest ih =>
      by_cases hx : kv.1 == x
      · have hpop : pyPop (kv :: rest) x = pyPop rest x := by
          simp [pyPop, List.filter_cons, bne, hx]
        rw [hpop, ih]
        by_cases hk : x == k
        · simp [hk]
        · have hk2 : x ≠ k := by simpa using hk
          have hne : (kv.1 == k) = false := by
            rw [beq_eq_false_iff_ne]
            intro he
            exact hk2 ((eq_of_beq hx).symm.trans he)
          simp [hk, pyGet_cons, hne]
      · have hpop : pyPop (kv :: rest) x = kv :: pyPop rest x := by
          simp [pyPop, List.filter_cons, bne, hx]
        rw [hpop, pyGet_cons, ih, pyGet_cons]
        by_cases hk : x == k
        · have hne : (kv.1 == k) = false := by
            rw [beq_eq_false_iff_ne]
            intro he
            have hxk : x = k := eq_of_beq hk
            exact hx (beq_iff_eq.mpr (he.trans hxk.symm))
          simp [hk, hne]
        · simp [hk]

theorem pyGet_popAll {α β : Type} [BEq α] [LawfulBEq α] (L : List α)
    (d : List (α × β)) (k : α) :
    pyGet (L.foldl (fun acc x => pyPop acc x) d) k =
      if L.contains k then none else pyGet d k := by
  induction L generalizing d with
  | nil => simp
  | cons x L ih =>
      rw [List.foldl_cons, ih, pyGet_pyPop]
      by_cases hx : x = k
      · have hx1 : (x == k) = true := beq_iff_eq.mpr hx
        have hx2 : (k == x) = true := beq_iff_eq.mpr hx.symm
        by_cases hL : k ∈ L <;> simp [List.contains_cons, hx1, hx2, hL]
      · have hx2 : (k == x) = false := by
          rw [beq_eq_false_iff_ne]
          exact fun h => hx h.symm
        have hx3 : (x == k) = false := by
          rw [beq_eq_false_iff_ne]
          exact hx
        by_cases hL : k ∈ L <;> simp [List.contains_cons, hx2, hx3, hL]

theorem mem_popAll {α β : Type} [BEq α] [LawfulBEq α] {L : List α}
    {d : List (α × β)} {kv : α × β}
    (h : kv ∈ L.foldl (fun acc x => pyPop acc x) d) :
    kv ∈ d ∧ L.contains kv.1 = false := by
  induction L generalizing d with
  | nil => simpa using h
  | cons x L ih =>
      rw [List.foldl_cons] at h
      obtain ⟨hmem, hrest⟩ := ih h
      have hx : ((fun q : α × β => q.1 != x) kv) = true :=
        @List.of_mem_filter _ (fun q : α × β => q.1 != x) kv d hmem
      have hmem2 : kv ∈ d :=
        @List.mem_of_mem_filter _ (fun q : α × β => q.1 != x) kv d hmem
      refine ⟨hmem2, ?_⟩
      have h1 : kv.1 ≠ x := by simpa [bne] using hx
      rw [List.contains_cons, Bool.or_eq_false_iff]
      exact ⟨by simpa using h1, hrest⟩

/-! ## Feature-overlay lemmas (C9) -/

theorem entityOverlay_preserve
    (feature : List (String × LoadedEntity)) (del : List String)
    (acc : List (String × LoadedEntity)) (k : String)
    (hk : ∀ kv ∈ feature, kv.1 ≠ k) :
    pyGet (feature.foldl
        (fun (acc : List (String × LoadedEntity)) kv =>
          if del.contains kv.1 then acc else pyInsert acc kv.1 kv.2) acc) k =
      pyGet acc k := by
  induction feature generalizing acc with
  | nil => rfl
  | cons kv rest ih =>
      rw [List.foldl_cons]
      have hkk : kv.1 ≠ k := hk kv (List.mem_cons_self _ _)
      have hrest : ∀ kv2 ∈ rest, kv2.1 ≠ k := fun kv2 hm =>
        hk kv2 (List.mem_cons_of_mem _ hm)
      by_cases hd : del.contains kv.1
      · rw [if_pos hd]
        exact ih acc hrest
      · rw [if_neg hd, ih (pyInsert acc kv.1 kv.2) hrest]
        exact pyGet_pyInsert_ne acc kv.1 k kv.2 (Ne.symm hkk)

theorem entityOverlay_lookup
    (feature : List (String × LoadedEntity)) (del : List String)
    (acc : List (String × LoadedEntity)) (k : String) (v : LoadedEntity)
    (hnodup : (feature.map Prod.fst).Nodup)
    (hget : pyGet feature k = some v)
    (hdel : del.contains k = false) :
    pyGet (feature.foldl
        (fun (acc : List (String × LoadedEntity)) kv =>
          if del.contains kv.1 then acc else pyInsert acc kv.1 kv.2) acc) k =
      some v := by
  induction feature generalizing acc with
  | nil => simp [pyGet] at hget
  | cons kv rest ih =>
      rw [List.foldl_cons]
      rw [pyGet_cons] at hget
      rw [List.map_cons, List.nodup_cons] at hnodup
      by_cases h0 : kv.1 == k
      · have hk : kv.1 = k := eq_of_beq h0
        rw [if_pos h0] at hget
        have hv : kv.2 = v := Option.some.inj hget
        have hdel2 : ¬(del.contains kv.1 = true) := by
          rw [hk, hdel]
          exact Bool.false_ne_true
        rw [if_neg hdel2]
        have hrest : ∀ kv2 ∈ rest, kv2.1 ≠ k := by
          intro kv2 hm he
          exact hnodup.1 (hk ▸ he ▸ List.mem_map_of_mem Prod.fst hm)
        rw [entityOverlay_preserve rest del _ k hrest, ← hk, ← hv]
        exact pyGet_pyInsert_self acc kv.1 kv.2
      · rw [if_neg h0] at hget
        exact ih _ hnodup.2 hget

theorem relOverlay_preserve (xs : List LoadedRel) (del : List RelKey)
    (acc : List (RelKey × LoadedRel)) (k : RelKey)
    (hk : ∀ r ∈ xs, relationshipKey r ≠ k) :
    pyGet (xs.foldl
        (fun (acc : List (RelKey × LoadedRel)) rel =>
          if del.contains (relationshipKey rel) then acc
          else pyInsert acc (relationshipKey rel) rel) acc) k =
      pyGet acc k := by
  induction xs generalizing acc with
  | nil => rfl
  | cons x rest ih =>
      rw [List.foldl_cons]
      have hkk : relationshipKey x ≠ k := hk x (List.mem_cons_self _ _)
      have hrest : ∀ r ∈ rest, relationshipKey r ≠ k := fun r hm =>
        hk r (List.mem_cons_of_mem _ hm)
      by_cases hd : del.contains (relationshipKey x)
      · rw [if_pos hd]
        exact ih acc hrest
      · rw [if_neg hd, ih (pyInsert acc (relationshipKey x) x) hrest]
        exact pyGet_pyInsert_ne acc (relationshipKey x) k x (Ne.symm hkk)

theorem relOverlay_lookup (xs : List LoadedRel) (del : List RelKey)
    (acc : List (RelKey × LoadedRel)) (fr : LoadedRel)
    (hnodup : (xs.map relationshipKey).Nodup)
    (hmem : fr ∈ xs)
    (hdel : del.contains (relationshipKey fr) = false) :
    pyGet (xs.foldl
        (fun (acc : List (RelKey × LoadedRel)) rel =>
          if del.contains (relationshipKey rel) then acc
          else pyInsert acc (relationshipKey rel) rel) acc)
      (relationshipKey fr) = some fr := by
  induction xs generalizing acc with
  | nil => simp at hmem
  | cons x rest ih =>
      rw [List.foldl_cons]
      rw [List.map_cons, List.nodup_cons] at hnodup
      rcases List.mem_cons.mp hmem with h1 | h1
      · subst h1
        have hdel2 : ¬(del.contains (relationshipKey fr) = true) := by
          rw [hdel]
          exact Bool.false_ne_true
        rw [if_neg hdel2]
        have hrest : ∀ r ∈ rest, relationshipKey r ≠ relationshipKey fr := by
          intro r hm he
          exact hnodup.1 (he ▸ List.mem_map_of_mem relationshipKey hm)
        rw [relOverlay_preserve rest del _ _ hrest]
        exact pyGet_pyInsert_self acc (relationshipKey fr) fr
      · by_cases hd : del.contains (relationshipKey x)
        · rw [if_pos hd]
          exact ih acc hnodup.2 h1
        · rw [if_neg hd]
          exact ih _ hnodup.2 h1

theorem relOverlay_inv (xs : List LoadedRel) (del : List RelKey)
    (acc : List (RelKey × LoadedRel))
    (hacc : ∀ kv ∈ acc, kv.1 = relationshipKey kv.2) :
    ∀ kv ∈ xs.foldl
        (fun (acc : List (RelKey × LoadedRel)) rel =>
          if del.contains (relationshipKey rel) then acc
          else pyInsert acc (relationshipKey rel) rel) acc,
      kv.1 = relationshipKey kv.2 := by
  induction xs generalizing acc with
  | nil => exact hacc
  | cons x rest ih =>
      rw [List.foldl_cons]
      by_cases hd : del.contains (relationshipKey x)
      · rw [if_pos hd]
        exact ih acc hacc
      · rw [if_neg hd]
        refine ih _ ?_
        intro kv hkv
        rcases mem_pyInsert hkv with h1 | h1
        · exact hacc kv h1
        · rw [h1]

theorem relOverlay_keysNodup (xs : List LoadedRel) (del : List RelKey)
    (acc : List (RelKey × LoadedRel))
    (hacc : (acc.map Prod.fst).Nodup) :
    ((xs.foldl
        (fun (acc : List (RelKey × LoadedRel)) rel =>
          if del.contains (relationshipKey rel) then acc
          else pyInsert acc (relationshipKey rel) rel) acc).map
      Prod.fst).Nodup := by
  induction xs generalizing acc with
  | nil => exact hacc
  | cons x rest ih =>
      rw [List.foldl_cons]
      by_cases hd : del.contains (relationshipKey x)
      · rw [if_pos hd]
        exact ih acc hacc
      · rw [if_neg hd]
        exact ih _ (keysNodup_pyInsert _ _ hacc)

/-- C9: on the merged view, a stable id present in both stores resolves
to the feature store's entity, a stable id tombstoned in the feature
store is absent, and a feature relationship replaces every master
relationship sharing its 5-tuple dedup key (and tombstoned keys are
absent). -/
theorem C9_feature_overlay_wins
    (master feature : List (String × LoadedEntity))
    (masterDel featureDel : List String)
    (masterRels featureRels : List LoadedRel)
    (masterRelDel featureRelDel : List RelKey)
    (sid sidDead : String) (e : LoadedEntity) (fr : LoadedRel)
    (hnodupE : (feature.map Prod.fst).Nodup)
    (hgetE : pyGet feature sid = some e)
    (hdelE : featureDel.contains sid = false)
    (hdead : featureDel.contains sidDead = true)
    (hnodupR : (featureRels.map relationshipKey).Nodup)
    (hmemR : fr ∈ featureRels)
    (hdelR : featureRelDel.contains (relationshipKey fr) = false) :
    pyGet (mergeEntities master feature masterDel featureDel) sid = some e ∧
    pyGet (mergeEntities master feature masterDel featureDel) sidDead =
      none ∧
    fr ∈ mergeRelationships masterRels featureRels masterRelDel
      featureRelDel ∧
    (∀ mr ∈ masterRels, relationshipKey mr = relationshipKey fr → mr ≠ fr →
      mr ∉ mergeRelationships masterRels featureRels masterRelDel
        featureRelDel) := by
  have hOverlayE :
      pyGet (feature.foldl
          (fun (acc : List (String × LoadedEntity)) kv =>
            if featureDel.contains kv.1 then acc else pyInsert acc kv.1 kv.2)
          (master.filter (fun kv => !masterDel.contains kv.1))) sid =
        some e :=
    entityOverlay_lookup feature featureDel _ sid e hnodupE hgetE hdelE
  have hPartOne :
      pyGet (mergeEntities master feature masterDel featureDel) sid =
        some e := by
    unfold mergeEntities
    rw [pyGet_popAll, hdelE]
    · simpa using hOverlayE
  have hPartTwo :
      pyGet (mergeEntities master feature masterDel featureDel) sidDead =
        none := by
    unfold mergeEntities
    rw [pyGet_popAll, hdead]
    simp
  set d2 := featureRels.foldl
    (fun (acc : List (RelKey × LoadedRel)) rel =>
      if featureRelDel.contains (relationshipKey rel) then acc
      else pyInsert acc (relationshipKey rel) rel)
    (masterRels.foldl
      (fun (acc : List (RelKey × LoadedRel)) rel =>
        if masterRelDel.contains (relationshipKey rel) then acc
        else pyInsert acc (relationshipKey rel) rel) []) with hd2
  have hGetD2 : pyGet d2 (relationshipKey fr) = some fr := by
    rw [hd2]
    exact relOverlay_lookup featureRels featureRelDel _ fr hnodupR hmemR hdelR
  have hInvD2 : ∀ kv ∈ d2, kv.1 = relationshipKey kv.2 := by
    rw [hd2]
    refine relOverlay_inv _ _ _ ?_
    exact relOverlay_inv _ _ _ (by intro kv h; simp at h)
  have hNodupD2 : (d2.map Prod.fst).Nodup := by
    rw [hd2]
    exact relOverlay_keysNodup _ _ _ (relOverlay_keysNodup _ _ _ (by simp))
  have hMergeEq :
      mergeRelationships masterRels featureRels masterRelDel featureRelDel =
        (featureRelDel.foldl
          (fun (acc : List (RelKey × LoadedRel)) k => pyPop acc k) d2).map
          (fun kv => kv.2) := by
    rw [hd2]
    rfl
  have hGetD3 :
      pyGet (featureRelDel.foldl
          (fun (acc : List (RelKey × LoadedRel)) k => pyPop acc k) d2)
        (relationshipKey fr) = some fr := by
    rw [pyGet_popAll, hdelR]
    exact hGetD2
  have hPartThree :
      fr ∈ mergeRelationships masterRels featureRels masterRelDel
        featureRelDel := by
    rw [hMergeEq]
    have := pyGet_mem hGetD3
    exact List.mem_map_of_mem (fun kv => kv.2) this
  refine ⟨hPartOne, hPartTwo, hPartThree, ?_⟩
  intro mr _hmr hkey hne hmem
  rw [hMergeEq] at hmem
  rcases List.mem_map.mp hmem with ⟨kv, hkv, hsnd⟩
  obtain ⟨hkvD2, _⟩ := mem_popAll hkv
  have hfst : kv.1 = relationshipKey kv.2 := hInvD2 kv hkvD2
  have hkey2 : kv.1 = relationshipKey fr := by
    rw [hfst, hsnd, hkey]
  have hget2 : pyGet d2 kv.1 = some kv.2 :=
    pyGet_of_mem_nodup hNodupD2 (by rw [Prod.mk.eta]; exact hkvD2)
  rw [hkey2] at hget2
  have hfr : fr = kv.2 := Option.some.inj (hGetD2.symm.trans hget2)
  exact hne (by rw [← hsnd, ← hfr])

/-- A concrete loaded entity for the overlay witness. -/
def overlayEntity (origin : String) : LoadedEntity :=
  { entity_id := 1, stable_id := "s1", name := "Presenter",
    kind := "class", module := "M", file_path := some "Sources/P.swift",
    signature := some "class Presenter", commit_hash := "c1",
    member_names := [], origin := origin, target_type := none,
    visibility := none, extensions := [] }

/-- The master version of the overlaid relationship. -/
def overlayMasterRel : LoadedRel :=
  { target_name := "View", target_module := some "M",
    edge_type := "weakReference", metadata := [],
    source_stable_id := "s1", source_name := "Presenter",
    target_stable_id := none, target_entity_name := none,
    origin := "master" }

/-- The feature version of the overlaid relationship: same 5-tuple dedup
key, feature metadata. -/
def overlayFeatureRel : LoadedRel :=
  { target_name := "View", target_module := some "M",
    edge_type := "weakReference", metadata := [("branch", "feature")],
    source_stable_id := "s1", source_name := "Presenter",
    target_stable_id := none, target_entity_name := none,
    origin := "feature" }

/-- C9 witness: overlaying one feature entity over the master entity
with the same stable id, a tombstoned id, and a feature relationship
over a master one with the same dedup key. -/
theorem C9_feature_overlay_wins_witness :
    pyGet (mergeEntities [("s1", overlayEntity "master")]
        [("s1", overlayEntity "feature")] [] ["s9"]) "s1" =
      some (overlayEntity "feature") ∧
    pyGet (mergeEntities [("s1", overlayEntity "master")]
        [("s1", overlayEntity "feature")] [] ["s9"]) "s9" = none ∧
    overlayFeatureRel ∈
      mergeRelationships [overlayMasterRel] [overlayFeatureRel] [] [] ∧
    overlayMasterRel ∉
      mergeRelationships [overlayMasterRel] [overlayFeatureRel] [] [] := by
  obtain ⟨h1, h2, h3, h4⟩ :=
    C9_feature_overlay_wins [("s1", overlayEntity "master")]
      [("s1", overlayEntity "feature")] [] ["s9"]
      [overlayMasterRel] [overlayFeatureRel] [] []
      "s1" "s9" (overlayEntity "feature") overlayFeatureRel
      (by decide) (by decide) (by decide) (by decide) (by decide)
      (by decide) (by decide)
  exact ⟨h1, h2, h3,
    h4 overlayMasterRel (by decide) (by decide) (by decide)⟩

/-! ## Zero-hop queries (C6) -/

/-- Edge and node counts of a query result (none on error). -/
def payloadShape (r : Except QueryError GraphPayload) : Option (Nat × Nat) :=
  match r with
  | .ok p => some (p.edges.length, p.nodes.length)
  | .error _ => none

/-- C6 counterexample: on the store whose only edge is the structural
conforms edge EntityA -> ProtoP, the zero-hop query for EntityA returns
one edge and two nodes, because structural edges of included nodes are
appended regardless of the hop budget — not zero edges and one node as
the claim states. -/
theorem C6_counterexample_zero_hops_payload_not_singleton :
    payloadShape (getEntityGraph c6Db none "EntityA" none "both" false
      (some 0) "app" false) = some (1, 2) := by decide

theorem createsByChild_eq_nil {relationships : List LoadedRel}
    (h : ∀ r ∈ relationships, isCreates r = false) :
    ∀ node, createsByChild relationships node = [] := by
  intro node
  rw [createsByChild, List.filter_eq_nil_iff]
  intro r hr
  simp [h r hr]

theorem collectFocusGo_nil_queue (cbc : String → List LoadedRel)
    (stopId : Option String) :
    ∀ fuel focus, collectFocusGo cbc stopId fuel [] focus = focus := by
  intro fuel focus
  cases fuel <;> rfl

theorem collectFocusNodes_no_creates {relationships : List LoadedRel}
    (startId : String) (stopId : Option String)
    (h : ∀ r ∈ relationships, isCreates r = false) :
    collectFocusNodes relationships startId stopId = [startId] := by
  rw [collectFocusNodes]
  show collectFocusGo (createsByChild relationships) stopId
    (relationships.length + 1 + 1) [startId] [] = [startId]
  rw [collectFocusGo]
  simp only [List.contains, List.elem_nil, Bool.false_eq_true, if_false,
    createsByChild_eq_nil h, List.foldl_nil]
  exact collectFocusGo_nil_queue _ _ _ _

theorem attachCreatedByEdges_no_creates
    (entities : List (String × LoadedEntity))
    {relationships : List LoadedRel} (stopId : Option String)
    (h : ∀ r ∈ relationships, isCreates r = false) :
    ∀ (display : List String) (st : BuildSt),
      attachCreatedByEdges entities relationships display stopId st = st := by
  intro display
  induction display with
  | nil => intro st; rfl
  | cons x xs ih =>
      intro st
      simp only [attachCreatedByEdges] at ih ⊢
      rw [List.foldl_cons, createsByChild_eq_nil h, List.foldl_nil]
      exact ih st

theorem refsLimitedGo_zero_hops (entities : List (String × LoadedEntity))
    (rels : List LoadedRel) (stopId : Option String) :
    ∀ (queue : List (String × Nat)) (visited : List String) (st : BuildSt),
      refsLimitedGo entities rels stopId (some 0) queue visited st = st := by
  intro queue
  induction queue with
  | nil => intro visited st; rfl
  | cons head queue ih =>
      intro visited st
      obtain ⟨nodeId, depth⟩ := head
      rw [refsLimitedGo]
      have hbud : hopBudgetReached (some 0) depth = true := by
        simp [hopBudgetReached]
      by_cases hskip : nodeId = "" || visited.contains nodeId
      · rw [if_pos hskip]
        exact ih _ _
      · rw [if_neg hskip, if_pos hbud]
        exact ih _ _

theorem refsFullGo_zero_hops (entities : List (String × LoadedEntity))
    (rels : List LoadedRel) (stopId : Option String) :
    ∀ (fuel : Nat) (queue : List (String × Nat)) (visited display : List String)
      (st : BuildSt),
      refsFullGo entities rels stopId (some 0) fuel queue visited display st =
        (display, st) := by
  intro fuel
  induction fuel with
  | zero => intro queue visited display st; rfl
  | succ fuel ih =>
      intro queue visited display st
      cases queue with
      | nil => rfl
      | cons head queue =>
          obtain ⟨nodeId, depth⟩ := head
          rw [refsFullGo]
          have hbud : hopBudgetReached (some 0) depth = true := by
            simp [hopBudgetReached]
          by_cases hskip : visited.contains nodeId
          · rw [if_pos hskip]
            exact ih _ _ _ _
          · rw [if_neg hskip, if_pos hbud]
            exact ih _ _ _ _

theorem attachStructuralEdges_skip (entities : List (String × LoadedEntity))
    (stopId : Option String) :
    ∀ (l : List LoadedRel) (st : BuildSt),
      (∀ r ∈ l,
        (r.edge_type == "superclass" || r.edge_type == "conforms") = true →
          st.nodes.contains r.source_stable_id = false) →
      attachStructuralEdges entities l stopId st = st := by
  intro l
  induction l with
  | nil => intro st _; rfl
  | cons r l ih =>
      intro st h
      simp only [attachStructuralEdges] at ih ⊢
      rw [List.foldl_cons]
      have hstep :
          (if r.edge_type == "superclass" || r.edge_type == "conforms" then
            if r.source_stable_id != "" &&
                st.nodes.contains r.source_stable_id then
              appendReferenceEdge entities r stopId st
            else st
          else st) = st := by
        by_cases hty :
            (r.edge_type == "superclass" || r.edge_type == "conforms") = true
        · rw [if_pos hty]
          have hc := h r (List.mem_cons_self _ _) hty
          rw [hc]
          simp
        · rw [if_neg hty]
      rw [hstep]
      exact ih st (fun r2 hr2 => h r2 (List.mem_cons_of_mem _ hr2))

/-- C6 (amended): max_hops = 0 suppresses only the reference-edge BFS
expansion; createdBy edges of the created-by chain and structural edges
of included nodes may still appear.  When additionally the store holds
no creates edges, no structural edge leaves the start entity, and the
stop node differs from the start, the payload has zero edges and exactly
one node, the start entity. -/
theorem C6_amended_zero_hops_no_reference_expansion
    (entities : List (String × LoadedEntity))
    (relationships : List LoadedRel) (startNode : LoadedEntity)
    (stopNode : Option LoadedEntity) (direction : String)
    (includeSiblings : Bool)
    (hstart : pyGet entities startNode.stable_id = some startNode)
    (hnocreates : ∀ r ∈ relationships, isCreates r = false)
    (hnostructural : ∀ r ∈ relationships,
      (r.edge_type = "superclass" ∨ r.edge_type = "conforms") →
        r.source_stable_id ≠ startNode.stable_id)
    (hstop : ∀ sn, stopNode = some sn →
      sn.stable_id ≠ startNode.stable_id) :
    (buildGraphPayload entities relationships startNode stopNode direction
        includeSiblings (some 0)).edges = [] ∧
    (buildGraphPayload entities relationships startNode stopNode direction
        includeSiblings (some 0)).nodes = [serializeNode startNode] := by
  have hfocus := collectFocusNodes_no_creates startNode.stable_id
    (stopNode.map (fun n => n.stable_id)) hnocreates
  have hattach := attachCreatedByEdges_no_creates entities
    (stopNode.map (fun n => n.stable_id)) hnocreates
  have hlim := refsLimitedGo_zero_hops entities relationships
    (stopNode.map (fun n => n.stable_id))
  have hfull := refsFullGo_zero_hops entities relationships
    (stopNode.map (fun n => n.stable_id))
  have hstruct : attachStructuralEdges entities (referenceEdges relationships)
      (stopNode.map (fun n => n.stable_id))
      { edges := [], keys := [], nodes := [startNode.stable_id] } =
      { edges := [], keys := [], nodes := [startNode.stable_id] } := by
    apply attachStructuralEdges_skip
    intro r hr hty
    have hr2 : r ∈ relationships := (List.mem_filter.mp hr).1
    have hne : r.source_stable_id ≠ startNode.stable_id := by
      apply hnostructural r hr2
      rcases Bool.or_eq_true_iff.mp hty with h | h
      · exact Or.inl (eq_of_beq h)
      · exact Or.inr (eq_of_beq h)
    show ([startNode.stable_id].contains r.source_stable_id) = false
    rw [List.contains_cons]
    simp [hne]
  have hnodesAdd :
      ([startNode.stable_id] : List String).foldl
        (fun ns n =>
          if (match stopNode.map (fun n => n.stable_id) with
              | none => true
              | some s => n != s) then setAdd ns n else ns)
        ([] : List String) = [startNode.stable_id] := by
    cases hsn : stopNode with
    | none => simp [setAdd]
    | some sn =>
        have hne := hstop sn hsn
        have hne2 : (startNode.stable_id != sn.stable_id) = true :=
          bne_iff_ne.mpr (fun h => hne h.symm)
        simp [setAdd, hne2]
        exact fun h => hne h.symm
  have hfinal :
      ((sortNodesByName entities
          ([startNode.stable_id].filter
            (fun sid => (pyGet entities sid).isSome))).filterMap
        (fun sid => (pyGet entities sid).map serializeNode)) =
      [serializeNode startNode] := by
    simp [hstart, sortNodesByName, insortByName]
  have hcond : pyTruthy (stopNode.map (fun n => n.stable_id)) = false ∨
      ∀ x : LoadedEntity, stopNode = some x →
        ¬x.stable_id = startNode.stable_id :=
    Or.inr (fun x hx h => hstop x hx h)
  have hmatch : (match stopNode.map (fun n => n.stable_id) with
      | none => true
      | some s => startNode.stable_id != s) = true := by
    cases hsn : stopNode with
    | none => rfl
    | some sn => exact bne_iff_ne.mpr (fun h => (hstop sn hsn) h.symm)
  unfold buildGraphPayload
  cases includeSiblings <;>
    by_cases hdd : (direction == "downstream" || direction == "both") = true <;>
    by_cases huu : (direction == "upstream" || direction == "both") = true <;>
    simp [hdd, huu, hfocus, hattach, hlim, hfull, hnodesAdd, setAdd,
      hstruct, hfinal, hcond, hmatch, hstart, sortNodesByName,
      insortByName]

/-- A loaded start entity for the zero-hop witness. -/
def zeroHopEntity : LoadedEntity :=
  { entity_id := 1, stable_id := "sidA", name := "EntityA",
    kind := "class", module := "M", file_path := some "Sources/A.swift",
    signature := some "class EntityA", commit_hash := "c1",
    member_names := [], origin := "master", target_type := none,
    visibility := none, extensions := [] }

/-- A strongReference edge leaving the start entity (suppressed by the
zero hop budget). -/
def zeroHopRel : LoadedRel :=
  { target_name := "EntityB", target_module := some "M",
    edge_type := "strongReference", metadata := [],
    source_stable_id := "sidA", source_name := "EntityA",
    target_stable_id := some "sidB", target_entity_name := some "EntityB",
    origin := "master" }

/-- C6 amended witness: a store with one reference edge from the start
yields the solitary start node at zero hops. -/
theorem C6_amended_zero_hops_witness :
    (buildGraphPayload [("sidA", zeroHopEntity)] [zeroHopRel] zeroHopEntity
        none "both" false (some 0)).edges = [] ∧
    (buildGraphPayload [("sidA", zeroHopEntity)] [zeroHopRel] zeroHopEntity
        none "both" false (some 0)).nodes = [serializeNode zeroHopEntity] :=
  C6_amended_zero_hops_no_reference_expansion
    [("sidA", zeroHopEntity)] [zeroHopRel] zeroHopEntity none "both" false
    (by decide) (by decide) (by decide) (by decide)

/-! ## C7: the two optimized paths against the reference traversal -/

/-- C7 counterexample: on a store holding a single `creates` edge
EntityA -> EntityB (views rebuilt), the reference-traversal path returns
no edge and one node, while the lazy path emits the raw `creates` row as
an edge and pulls the created entity into the node list — the payloads
are not byte-identical. -/
theorem C7_counterexample_lazy_path_not_byte_identical :
    payloadShape (getEntityGraph c7Db none "EntityA" none "both" false
        none "app" false) = some (0, 1) ∧
    payloadShape (getEntityGraphLazy c7Db none "EntityA" none "both"
        none "app") = some (1, 2) := by
  decide

/-- C7 amended: the fast path is byte-identical to the reference
traversal whenever the materialized tables agree with the live data:
the fast loaders return exactly the entities and relationships the
standard loaders return and the standard loaders report no pending
tombstone.  Under these hypotheses every query (any entity name, stop
name, direction, sibling flag, hop budget and target-type filter, no
feature overlay) returns the same payload on both paths, because the
whole pipeline past loading is shared. -/
theorem C7_amended_fast_path_byte_identical (db : Db)
    (hE : loadEntitiesFast db "master" = (loadEntities db "master").1)
    (hDel : (loadEntities db "master").2 = [])
    (hR : loadRelationshipsFast db "master" =
      (loadRelationships db "master").1)
    (hRDel : (loadRelationships db "master").2 = [])
    (entityName : String) (stopName : Option String) (direction : String)
    (includeSiblings : Bool) (maxHops : Option Nat) (targetType : String) :
    getEntityGraph db none entityName stopName direction includeSiblings
        maxHops targetType true =
      getEntityGraph db none entityName stopName direction includeSiblings
        maxHops targetType false := by
  simp only [getEntityGraph]
  rw [hE, hDel, hR, hRDel]
  rfl

/-- C7 amended witness: on the rebuilt single-creates-edge store the
materialized tables agree with the live data and the two paths coincide
on a concrete query. -/
theorem C7_amended_fast_path_witness :
    getEntityGraph c7Db none "EntityA" none "both" false none "app" true =
      getEntityGraph c7Db none "EntityA" none "both" false none "app" false :=
  C7_amended_fast_path_byte_identical c7Db (by decide) (by decide)
    (by decide) (by decide) "EntityA" none "both" false none "app"

/-! ## C8: persist_relationships as a per-source replacement of edges -/

/-- The stage-2 dedup key type (the raw GROUP BY columns of the
`deduplicated` relationship CTE). -/
abbrev Stage2Key := Nat × Option Nat × String × Option String × String

/-- The tombstone rows _tombstone_relationships appends for the given
sources at this commit (pulled out of `tombstoneRelationships` for
reasoning). -/
def tombRowsOf (rows : List RelRow) (sourceIds : List Nat) (c : Nat) :
    List RelRow :=
  ((rows.filter (fun r =>
      sourceIds.contains r.source_entity_id && !r.is_deleted)).enum).map
    (fun p => mkTombstone p.2 (nextId (rows.map (fun r => r.id)) + p.1) c)

/-- The row _insert_relationship appends for one resolved record. -/
def newRowFor (rows : List RelRow) (c : Nat)
    (t : Nat × RelationshipRecord × Option Nat) : RelRow :=
  { id := nextId (rows.map (fun r => r.id)), source_entity_id := t.1,
    target_entity_id := t.2.2, target_name := t.2.1.target_name,
    target_module := t.2.1.target_module, edge_type := t.2.1.edge_type,
    metadata := t.2.1.metadata, commit_id := c, is_deleted := false }

/-- The rows the insertion loop of persist_relationships appends, with
their successive autoincrement ids. -/
def newRowsFrom (c : Nat) : List RelRow →
    List (Nat × RelationshipRecord × Option Nat) → List RelRow
  | _, [] => []
  | rows, t :: ts =>
      newRowFor rows c t :: newRowsFrom c (rows ++ [newRowFor rows c t]) ts

/-- The active relationship rows of one source entity: the rows the
latest-per-dedup-key selection keeps that are not tombstones (exactly
what the query loaders treat as that source's live edges). -/
def activeRelRows (rels : List RelRow) (s : Nat) : List RelRow :=
  (relSelected rels).filter
    (fun r => !r.is_deleted && r.source_entity_id == s)

/-- The payload columns of a stored relationship row (everything except
the autoincrement id, the commit and the tombstone flag). -/
def relPayload (r : RelRow) :
    Nat × Option Nat × String × Option String × String × Metadata :=
  (r.source_entity_id, r.target_entity_id, r.target_name, r.target_module,
   r.edge_type, r.metadata)

/-- The payload columns a resolved record is inserted with. -/
def recPayload (t : Nat × RelationshipRecord × Option Nat) :
    Nat × Option Nat × String × Option String × String × Metadata :=
  (t.1, t.2.2, t.2.1.target_name, t.2.1.target_module, t.2.1.edge_type,
   t.2.1.metadata)

/-- The stage-2 dedup key the inserted row of a resolved record will
carry. -/
def resolvedKey (t : Nat × RelationshipRecord × Option Nat) : Stage2Key :=
  (t.1, t.2.2, t.2.1.target_name, t.2.1.target_module, t.2.1.edge_type)

theorem le_foldr_max {a : Nat} {l : List Nat} (h : a ∈ l) :
    a ≤ l.foldr max 0 := by
  induction l with
  | nil => cases h
  | cons b l ih =>
      rcases List.mem_cons.mp h with h | h
      · subst h; exact Nat.le_max_left _ _
      · exact Nat.le_trans (ih h) (Nat.le_max_right _ _)

theorem foldr_max_le {c : Nat} {l : List Nat} (h : ∀ a ∈ l, a ≤ c) :
    l.foldr max 0 ≤ c := by
  induction l with
  | nil => exact Nat.zero_le c
  | cons b l ih =>
      exact Nat.max_le.mpr ⟨h b (List.mem_cons_self b l),
        ih (fun a ha => h a (List.mem_cons_of_mem b ha))⟩

theorem le_listMax {a : Nat} {l : List Nat} (h : a ∈ l) : a ≤ listMax l :=
  le_foldr_max h

theorem listMax_le {c : Nat} {l : List Nat} (h : ∀ a ∈ l, a ≤ c) :
    listMax l ≤ c :=
  foldr_max_le h

theorem lt_nextId {r : RelRow} {rows : List RelRow} (h : r ∈ rows) :
    r.id < nextId (rows.map (fun x => x.id)) := by
  have h1 : r.id ≤ (rows.map (fun x => x.id)).foldr max 0 :=
    le_foldr_max (List.mem_map_of_mem _ h)
  exact Nat.lt_succ_of_le h1

theorem contains_true_of_mem {α : Type} [BEq α] [LawfulBEq α] {l : List α}
    {a : α} (h : a ∈ l) : l.contains a = true :=
  List.elem_iff.mpr h

theorem mem_of_contains_true {α : Type} [BEq α] [LawfulBEq α] {l : List α}
    {a : α} (h : l.contains a = true) : a ∈ l :=
  List.elem_iff.mp h

theorem mem_natSetAdd_self (s : List Nat) (x : Nat) : x ∈ natSetAdd s x := by
  unfold natSetAdd
  by_cases h : s.contains x = true
  · rw [if_pos h]; exact mem_of_contains_true h
  · rw [if_neg h]
    exact List.mem_append_right _ (List.mem_singleton.mpr rfl)

theorem mem_natSetAdd_of_mem {s : List Nat} {y : Nat} (x : Nat)
    (h : y ∈ s) : y ∈ natSetAdd s x := by
  unfold natSetAdd
  by_cases hx : s.contains x = true
  · rw [if_pos hx]; exact h
  · rw [if_neg hx]; exact List.mem_append_left _ h

theorem mem_foldl_natSetAdd_acc {l : List Nat} :
    ∀ {acc : List Nat} {y : Nat}, y ∈ acc → y ∈ l.foldl natSetAdd acc := by
  induction l with
  | nil => intro acc y h; exact h
  | cons x l ih => intro acc y h; exact ih (mem_natSetAdd_of_mem x h)

theorem mem_foldl_natSetAdd {l : List Nat} {y : Nat} (h : y ∈ l)
    (acc : List Nat) : y ∈ l.foldl natSetAdd acc := by
  induction l generalizing acc with
  | nil => cases h
  | cons x l ih =>
      rcases List.mem_cons.mp h with h | h
      · subst h
        exact mem_foldl_natSetAdd_acc (l := l) (mem_natSetAdd_self acc y)
      · exact ih h _

theorem mem_foldl_natSetAdd_res
    {l : List (Nat × RelationshipRecord × Option Nat)} :
    ∀ {acc : List Nat} {y : Nat}, y ∈ acc →
      y ∈ l.foldl (fun s t => natSetAdd s t.1) acc := by
  induction l with
  | nil => intro acc y h; exact h
  | cons t l ih => intro acc y h; exact ih (mem_natSetAdd_of_mem t.1 h)

theorem mem_collectedSourceIds_of_value {db : Db}
    {idMap : List (String × Nat)} {recs : List RelationshipRecord}
    {s : Nat} (h : s ∈ idMap.map (fun kv => kv.2)) :
    s ∈ collectedSourceIds db idMap recs := by
  unfold collectedSourceIds
  exact mem_foldl_natSetAdd_res (mem_foldl_natSetAdd h [])

theorem argmaxGo_mem :
    ∀ (l : List RelRow) (acc : Option RelRow) (r : RelRow),
      l.foldl (fun acc r =>
        match acc with
        | none => some r
        | some b => if r.id > b.id then some r else some b) acc = some r →
      acc = some r ∨ r ∈ l := by
  intro l
  induction l with
  | nil => intro acc r h; exact Or.inl h
  | cons x l ih =>
      intro acc r h
      rcases ih _ r h with h' | h'
      · cases acc with
        | none =>
            have hx : x = r := Option.some.inj h'
            exact Or.inr (hx ▸ List.mem_cons_self _ _)
        | some b =>
            have h'' : (if x.id > b.id then some x else some b) = some r := h'
            by_cases hid : x.id > b.id
            · rw [if_pos hid] at h''
              have hx : x = r := Option.some.inj h''
              exact Or.inr (hx ▸ List.mem_cons_self _ _)
            · rw [if_neg hid] at h''
              exact Or.inl h''
      · exact Or.inr (List.mem_cons_of_mem _ h')

theorem argmaxIdRel_mem {rows : List RelRow} {r : RelRow}
    (h : argmaxIdRel rows = some r) : r ∈ rows := by
  rcases argmaxGo_mem rows none r h with h' | h'
  · cases h'
  · exact h'

theorem argmaxGo_some :
    ∀ (l : List RelRow) (b : RelRow),
      l.foldl (fun acc r =>
        match acc with
        | none => some r
        | some b => if r.id > b.id then some r else some b) (some b) ≠
        none := by
  intro l
  induction l with
  | nil => intro b h; cases h
  | cons x l ih =>
      intro b
      show l.foldl _ (if x.id > b.id then some x else some b) ≠ none
      by_cases hid : x.id > b.id
      · rw [if_pos hid]; exact ih x
      · rw [if_neg hid]; exact ih b

theorem argmaxIdRel_ne_none {rows : List RelRow} (h : rows ≠ []) :
    argmaxIdRel rows ≠ none := by
  cases rows with
  | nil => exact absurd rfl h
  | cons x l => exact argmaxGo_some l x

theorem argmaxGo_pick {r : RelRow} :
    ∀ (l : List RelRow) (acc : Option RelRow),
      (∀ x ∈ l, x ≠ r → x.id < r.id) →
      (acc = some r ∨
        (∃ b, acc = some b ∧ b.id < r.id ∧ r ∈ l) ∨
        (acc = none ∧ r ∈ l)) →
      l.foldl (fun acc r =>
        match acc with
        | none => some r
        | some b => if r.id > b.id then some r else some b) acc = some r := by
  intro l
  induction l with
  | nil =>
      intro acc _ hacc
      rcases hacc with h | ⟨b, _, _, hr⟩ | ⟨_, hr⟩
      · exact h
      · cases hr
      · cases hr
  | cons x l ih =>
      intro acc hlt hacc
      have hlt' : ∀ y ∈ l, y ≠ r → y.id < r.id :=
        fun y hy => hlt y (List.mem_cons_of_mem _ hy)
      rcases hacc with h | ⟨b, hb, hbid, hr⟩ | ⟨hn, hr⟩
      · subst h
        show l.foldl _ (if x.id > r.id then some x else some r) = some r
        by_cases hx : x = r
        · subst hx
          rw [if_neg (Nat.lt_irrefl _)]
          exact ih _ hlt' (Or.inl rfl)
        · have hxlt : x.id < r.id := hlt x (List.mem_cons_self _ _) hx
          rw [if_neg (by omega)]
          exact ih _ hlt' (Or.inl rfl)
      · subst hb
        show l.foldl _ (if x.id > b.id then some x else some b) = some r
        by_cases hx : x = r
        · subst hx
          rw [if_pos (by omega)]
          exact ih _ hlt' (Or.inl rfl)
        · have hxlt : x.id < r.id := hlt x (List.mem_cons_self _ _) hx
          have hrl : r ∈ l := by
            rcases List.mem_cons.mp hr with h | h
            · exact absurd h.symm hx
            · exact h
          by_cases hxb : x.id > b.id
          · rw [if_pos hxb]
            exact ih _ hlt' (Or.inr (Or.inl ⟨x, rfl, hxlt, hrl⟩))
          · rw [if_neg hxb]
            exact ih _ hlt' (Or.inr (Or.inl ⟨b, rfl, hbid, hrl⟩))
      · subst hn
        show l.foldl _ (some x) = some r
        by_cases hx : x = r
        · subst hx
          exact ih _ hlt' (Or.inl rfl)
        · have hxlt : x.id < r.id := hlt x (List.mem_cons_self _ _) hx
          have hrl : r ∈ l := by
            rcases List.mem_cons.mp hr with h | h
            · exact absurd h.symm hx
            · exact h
          exact ih _ hlt' (Or.inr (Or.inl ⟨x, rfl, hxlt, hrl⟩))

theorem argmaxIdRel_eq_of_max {rows : List RelRow} {r : RelRow}
    (hmem : r ∈ rows) (hmax : ∀ x ∈ rows, x ≠ r → x.id < r.id) :
    argmaxIdRel rows = some r :=
  argmaxGo_pick rows none hmax (Or.inr (Or.inr ⟨rfl, hmem⟩))

theorem mem_relRowsAtMax {rels : List RelRow} {r : RelRow} :
    r ∈ relRowsAtMax rels ↔
      r ∈ rels ∧ r.commit_id = relMaxCommitFor rels r := by
  unfold relRowsAtMax
  rw [List.mem_filter]
  exact and_congr_right (fun _ => by rw [beq_iff_eq])

theorem relMaxCommitFor_le {rels : List RelRow} {r : RelRow} {c : Nat}
    (h : ∀ x ∈ rels, x.commit_id ≤ c) : relMaxCommitFor rels r ≤ c := by
  unfold relMaxCommitFor
  apply listMax_le
  intro a ha
  rcases List.mem_map.mp ha with ⟨q, hq, rfl⟩
  exact h q (List.mem_filter.mp hq).1

theorem le_relMaxCommitFor {rels : List RelRow} {r q : RelRow}
    (hq : q ∈ rels) (hkey : relStage1Key q = relStage1Key r) :
    q.commit_id ≤ relMaxCommitFor rels r := by
  unfold relMaxCommitFor
  apply le_listMax
  exact List.mem_map.mpr
    ⟨q, List.mem_filter.mpr ⟨hq, beq_iff_eq.mpr hkey⟩, rfl⟩

theorem snd_mem_of_mem_enumFrom {α : Type} :
    ∀ {l : List α} {k : Nat} {p : Nat × α}, p ∈ l.enumFrom k → p.2 ∈ l := by
  intro l
  induction l with
  | nil => intro k p h; cases h
  | cons x xs ih =>
      intro k p h
      rcases List.mem_cons.mp h with h | h
      · rw [h]; exact List.mem_cons_self _ _
      · exact List.mem_cons_of_mem _ (ih h)

theorem mem_tombRowsOf {rows : List RelRow} {ids : List Nat} {c : Nat}
    {r' : RelRow} (h : r' ∈ tombRowsOf rows ids c) :
    r'.is_deleted = true ∧ r'.commit_id = c ∧
      nextId (rows.map (fun x => x.id)) ≤ r'.id ∧
      ∃ r ∈ rows,
        (ids.contains r.source_entity_id && !r.is_deleted) = true ∧
        r' = mkTombstone r r'.id c := by
  unfold tombRowsOf at h
  rcases List.mem_map.mp h with ⟨p, hp, rfl⟩
  have hmem : p.2 ∈ rows.filter (fun r =>
      ids.contains r.source_entity_id && !r.is_deleted) :=
    snd_mem_of_mem_enumFrom hp
  have hfil := List.mem_filter.mp hmem
  exact ⟨rfl, rfl, Nat.le_add_right _ _, p.2, hfil.1, hfil.2, rfl⟩

theorem tombRowsOf_complete_aux {c base : Nat} :
    ∀ (l : List RelRow) (k : Nat) {r : RelRow}, r ∈ l →
      ∃ r' ∈ (l.enumFrom k).map
        (fun p => mkTombstone p.2 (base + p.1) c),
        r' = mkTombstone r r'.id c := by
  intro l
  induction l with
  | nil => intro k r h; cases h
  | cons x xs ih =>
      intro k r h
      rcases List.mem_cons.mp h with h | h
      · subst h
        exact ⟨mkTombstone r (base + k) c, List.mem_cons_self _ _, rfl⟩
      · rcases ih (k + 1) h with ⟨r', hr', heq⟩
        exact ⟨r', List.mem_cons_of_mem _ hr', heq⟩

theorem tombRowsOf_complete {rows : List RelRow} (ids : List Nat) (c : Nat)
    {r : RelRow} (hr : r ∈ rows)
    (hcond : (ids.contains r.source_entity_id && !r.is_deleted) = true) :
    ∃ r' ∈ tombRowsOf rows ids c, r' = mkTombstone r r'.id c := by
  unfold tombRowsOf
  exact tombRowsOf_complete_aux _ 0 (List.mem_filter.mpr ⟨hr, hcond⟩)

theorem insertFold_rels (c : Nat) :
    ∀ (ts : List (Nat × RelationshipRecord × Option Nat)) (d : Db),
      (ts.foldl (fun d t => insertRelationship d t.1 t.2.2
          t.2.1.target_name t.2.1.target_module t.2.1.edge_type
          t.2.1.metadata c false) d).entity_relationships =
        d.entity_relationships ++
          newRowsFrom c d.entity_relationships ts := by
  intro ts
  induction ts with
  | nil => intro d; simp [newRowsFrom]
  | cons t ts ih =>
      intro d
      rw [List.foldl_cons, ih]
      have h : (insertRelationship d t.1 t.2.2 t.2.1.target_name
          t.2.1.target_module t.2.1.edge_type t.2.1.metadata c
          false).entity_relationships =
          d.entity_relationships ++ [newRowFor d.entity_relationships c t] :=
        rfl
      rw [h]
      simp [newRowsFrom, List.append_assoc]

theorem newRowsFrom_map_key (c : Nat) :
    ∀ (ts : List (Nat × RelationshipRecord × Option Nat))
      (rows : List RelRow),
      (newRowsFrom c rows ts).map relStage2Key = ts.map resolvedKey := by
  intro ts
  induction ts with
  | nil => intro rows; rfl
  | cons t ts ih =>
      intro rows
      show relStage2Key (newRowFor rows c t) ::
          (newRowsFrom c (rows ++ [newRowFor rows c t]) ts).map
            relStage2Key =
        resolvedKey t :: ts.map resolvedKey
      rw [ih]
      rfl

theorem mem_newRowsFrom {c : Nat} :
    ∀ {ts : List (Nat × RelationshipRecord × Option Nat)}
      {rows : List RelRow} {n : RelRow}, n ∈ newRowsFrom c rows ts →
      n.is_deleted = false ∧ n.commit_id = c ∧
        ∃ t ∈ ts, relPayload n = recPayload t := by
  intro ts
  induction ts with
  | nil => intro rows n h; cases h
  | cons t ts ih =>
      intro rows n h
      rcases List.mem_cons.mp h with h | h
      · subst h; exact ⟨rfl, rfl, t, List.mem_cons_self _ _, rfl⟩
      · rcases ih h with ⟨h1, h2, t', ht', h3⟩
        exact ⟨h1, h2, t', List.mem_cons_of_mem _ ht', h3⟩

theorem newRowsFrom_complete {c : Nat} :
    ∀ {ts : List (Nat × RelationshipRecord × Option Nat)}
      {t : Nat × RelationshipRecord × Option Nat} (rows : List RelRow),
      t ∈ ts → ∃ n ∈ newRowsFrom c rows ts,
        n.is_deleted = false ∧ n.commit_id = c ∧
          relPayload n = recPayload t ∧ relStage2Key n = resolvedKey t := by
  intro ts
  induction ts with
  | nil => intro t rows h; cases h
  | cons t' ts ih =>
      intro t rows h
      rcases List.mem_cons.mp h with h | h
      · subst h
        exact ⟨newRowFor rows c t, List.mem_cons_self _ _, rfl, rfl, rfl,
          rfl⟩
      · rcases ih (rows ++ [newRowFor rows c t']) h with ⟨n, hn, hp⟩
        exact ⟨n, List.mem_cons_of_mem _ hn, hp⟩

theorem newRowsFrom_id_gt {c : Nat} :
    ∀ {ts : List (Nat × RelationshipRecord × Option Nat)}
      {rows : List RelRow} {n : RelRow}, n ∈ newRowsFrom c rows ts →
      ∀ x ∈ rows, x.id < n.id := by
  intro ts
  induction ts with
  | nil => intro rows n h; cases h
  | cons t ts ih =>
      intro rows n h x hx
      rcases List.mem_cons.mp h with h | h
      · subst h; exact lt_nextId hx
      · exact ih h x (List.mem_append_left _ hx)

theorem tombstoneRelationships_rels {db : Db} {ids : List Nat} {c : Nat}
    (h : ids ≠ []) :
    (tombstoneRelationships db ids c).entity_relationships =
      db.entity_relationships ++
        tombRowsOf db.entity_relationships ids c := by
  have hI : ids.isEmpty = false := by
    cases ids with
    | nil => exact absurd rfl h
    | cons a l => rfl
  simp [tombstoneRelationships, tombRowsOf, hI]

theorem persistRelationships_rels {db : Db} {c : Nat}
    {idMap : List (String × Nat)} {recs : List RelationshipRecord}
    (h1 : idMap ≠ [])
    (h2 : collectedSourceIds db idMap recs ≠ []) :
    (persistRelationships db c idMap recs).entity_relationships =
      (db.entity_relationships ++
        tombRowsOf db.entity_relationships
          (collectedSourceIds db idMap recs) c) ++
        newRowsFrom c
          (db.entity_relationships ++
            tombRowsOf db.entity_relationships
              (collectedSourceIds db idMap recs) c)
          (resolvedRecs db idMap recs) := by
  have hI1 : idMap.isEmpty = false := by
    cases idMap with
    | nil => exact absurd rfl h1
    | cons a l => rfl
  have hI2 : (collectedSourceIds db idMap recs).isEmpty = false := by
    cases hcs : collectedSourceIds db idMap recs with
    | nil => exact absurd hcs h2
    | cons a l => rfl
  unfold persistRelationships
  rw [if_neg (by simp [hI1]), if_neg (by simp [hI2])]
  rw [insertFold_rels, tombstoneRelationships_rels h2]

/-- One step of the dedup-and-pick fold of `relSelected`. -/
def selStep (L : List RelRow) (acc : List Stage2Key × List RelRow)
    (r : RelRow) : List Stage2Key × List RelRow :=
  if acc.1.contains (relStage2Key r) then acc
  else
    match argmaxIdRel (L.filter
        (fun q => relStage2Key q == relStage2Key r)) with
    | none => acc
    | some best => (acc.1 ++ [relStage2Key r], acc.2 ++ [best])

theorem relSelected_eq_selGo (rels : List RelRow) :
    relSelected rels =
      ((relRowsAtMax rels).foldl (selStep (relRowsAtMax rels))
        ([], [])).2 :=
  rfl

theorem selStep_snd_mono (L : List RelRow)
    (acc : List Stage2Key × List RelRow) (r : RelRow) {y : RelRow}
    (hy : y ∈ acc.2) : y ∈ (selStep L acc r).2 := by
  unfold selStep
  by_cases hc : acc.1.contains (relStage2Key r) = true
  · rw [if_pos hc]; exact hy
  · rw [if_neg hc]
    rcases harg : argmaxIdRel (L.filter
        (fun q => relStage2Key q == relStage2Key r)) with _ | best
    · exact hy
    · exact List.mem_append_left _ hy

theorem selStep_snd_cases (L : List RelRow)
    (acc : List Stage2Key × List RelRow) (r : RelRow) {y : RelRow}
    (hy : y ∈ (selStep L acc r).2) :
    y ∈ acc.2 ∨ argmaxIdRel (L.filter
      (fun q => relStage2Key q == relStage2Key r)) = some y := by
  unfold selStep at hy
  by_cases hc : acc.1.contains (relStage2Key r) = true
  · rw [if_pos hc] at hy; exact Or.inl hy
  · rw [if_neg hc] at hy
    rcases harg : argmaxIdRel (L.filter
        (fun q => relStage2Key q == relStage2Key r)) with _ | best
    · rw [harg] at hy
      exact Or.inl hy
    · rw [harg] at hy
      rcases List.mem_append.mp hy with h2 | h2
      · exact Or.inl h2
      · have hyb : y = best := List.mem_singleton.mp h2
        subst hyb
        exact Or.inr rfl

theorem selGo_mono (L : List RelRow) :
    ∀ (P : List RelRow) (acc : List Stage2Key × List RelRow) {y : RelRow},
      y ∈ acc.2 → y ∈ (P.foldl (selStep L) acc).2 := by
  intro P
  induction P with
  | nil => intro acc y hy; exact hy
  | cons p P ih =>
      intro acc y hy
      exact ih (selStep L acc p) (selStep_snd_mono L acc p hy)

theorem selGo_sound (L : List RelRow) :
    ∀ (P : List RelRow) (acc : List Stage2Key × List RelRow) {x : RelRow},
      x ∈ (P.foldl (selStep L) acc).2 →
      x ∈ acc.2 ∨ ∃ q, q ∈ P ∧
        argmaxIdRel (L.filter
          (fun y => relStage2Key y == relStage2Key q)) = some x := by
  intro P
  induction P with
  | nil => intro acc x hx; exact Or.inl hx
  | cons p P ih =>
      intro acc x hx
      rcases ih (selStep L acc p) hx with h | ⟨q, hq, hqa⟩
      · rcases selStep_snd_cases L acc p h with h2 | h2
        · exact Or.inl h2
        · exact Or.inr ⟨p, List.mem_cons_self _ _, h2⟩
      · exact Or.inr ⟨q, List.mem_cons_of_mem _ hq, hqa⟩

theorem selGo_complete (L : List RelRow) :
    ∀ (P : List RelRow) (acc : List Stage2Key × List RelRow)
      (q x : RelRow),
      (∀ p ∈ P, p ∈ L) → q ∈ P →
      relStage2Key q ∉ acc.1 →
      argmaxIdRel (L.filter
        (fun y => relStage2Key y == relStage2Key q)) = some x →
      x ∈ (P.foldl (selStep L) acc).2 := by
  intro P
  induction P with
  | nil => intro acc q x _ hq; cases hq
  | cons p P ih =>
      intro acc q x hPL hq hks harg
      have hPL' : ∀ a ∈ P, a ∈ L :=
        fun a ha => hPL a (List.mem_cons_of_mem _ ha)
      by_cases hc : acc.1.contains (relStage2Key p) = true
      · have hstep : selStep L acc p = acc := by
          unfold selStep; rw [if_pos hc]
        rcases List.mem_cons.mp hq with hqp | hq'
        · subst hqp
          exact absurd (mem_of_contains_true hc) hks
        · show x ∈ (P.foldl (selStep L) (selStep L acc p)).2
          rw [hstep]
          exact ih acc q x hPL' hq' hks harg
      · have hpL : p ∈ L := hPL p (List.mem_cons_self _ _)
        have hpf : p ∈ L.filter
            (fun y => relStage2Key y == relStage2Key p) :=
          List.mem_filter.mpr ⟨hpL, beq_iff_eq.mpr rfl⟩
        rcases hbarg : argmaxIdRel (L.filter
            (fun y => relStage2Key y == relStage2Key p)) with _ | best
        · exact absurd hbarg
            (argmaxIdRel_ne_none (List.ne_nil_of_mem hpf))
        · have hstep : selStep L acc p =
              (acc.1 ++ [relStage2Key p], acc.2 ++ [best]) := by
            unfold selStep; rw [if_neg hc, hbarg]
          rcases List.mem_cons.mp hq with hqp | hq'
          · subst hqp
            have hxb : best = x := by
              rw [harg] at hbarg
              exact (Option.some.inj hbarg).symm
            show x ∈ (P.foldl (selStep L) (selStep L acc q)).2
            rw [hstep, ← hxb]
            exact selGo_mono L P _
              (List.mem_append_right _ (List.mem_singleton.mpr rfl))
          · by_cases hkey : relStage2Key q = relStage2Key p
            · have hfeq : L.filter
                  (fun y => relStage2Key y == relStage2Key q) =
                  L.filter (fun y => relStage2Key y == relStage2Key p) := by
                apply List.filter_congr
                intro a _; rw [hkey]
              rw [hfeq, hbarg] at harg
              have hxb : best = x := Option.some.inj harg
              show x ∈ (P.foldl (selStep L) (selStep L acc p)).2
              rw [hstep, ← hxb]
              exact selGo_mono L P _
                (List.mem_append_right _ (List.mem_singleton.mpr rfl))
            · have hks' : relStage2Key q ∉ acc.1 ++ [relStage2Key p] := by
                intro hmem
                rcases List.mem_append.mp hmem with h | h
                · exact hks h
                · exact hkey (List.mem_singleton.mp h)
              show x ∈ (P.foldl (selStep L) (selStep L acc p)).2
              rw [hstep]
              exact ih _ q x hPL' hq' hks' harg

theorem mem_relSelected_argmax {rels : List RelRow} {r : RelRow}
    (h : r ∈ relSelected rels) :
    ∃ q ∈ relRowsAtMax rels,
      argmaxIdRel ((relRowsAtMax rels).filter
        (fun y => relStage2Key y == relStage2Key q)) = some r := by
  rw [relSelected_eq_selGo] at h
  rcases selGo_sound (relRowsAtMax rels) (relRowsAtMax rels) ([], []) h with
    h' | ⟨q, hq, hqa⟩
  · cases h'
  · exact ⟨q, hq, hqa⟩

theorem relSelected_of_argmax {rels : List RelRow} {q r : RelRow}
    (hq : q ∈ relRowsAtMax rels)
    (h : argmaxIdRel ((relRowsAtMax rels).filter
      (fun y => relStage2Key y == relStage2Key q)) = some r) :
    r ∈ relSelected rels := by
  rw [relSelected_eq_selGo]
  exact selGo_complete (relRowsAtMax rels) (relRowsAtMax rels) ([], []) q r
    (fun p hp => hp) hq (List.not_mem_nil _) h

/-- C8: after persist_relationships(commit, src_map, new_edges), for a
source entity id in src_map.values(), the set of active edges (rows the
latest-per-dedup-key selection keeps that are not tombstones) with that
source is exactly the set of resolved new edges with that source, and
every previously live row of that source has a tombstone copy at this
commit.  Hypotheses: the commit is later than every stored relationship
row's commit, and the resolved records carry pairwise distinct dedup
keys (re-asserting the same key twice would keep only the last copy). -/
theorem C8_persist_relationships_replaces_active_edges
    (db : Db) (c : Nat) (idMap : List (String × Nat))
    (recs : List RelationshipRecord) (s : Nat)
    (hs : s ∈ idMap.map (fun kv => kv.2))
    (hc : ∀ r ∈ db.entity_relationships, r.commit_id < c)
    (hkeys : (resolvedRecs db idMap recs).Pairwise
      (fun a b => resolvedKey a ≠ resolvedKey b)) :
    (∀ row ∈ activeRelRows
        (persistRelationships db c idMap recs).entity_relationships s,
      row.commit_id = c ∧ ∃ t ∈ resolvedRecs db idMap recs,
        t.1 = s ∧ relPayload row = recPayload t) ∧
    (∀ t ∈ resolvedRecs db idMap recs, t.1 = s →
      ∃ row ∈ activeRelRows
        (persistRelationships db c idMap recs).entity_relationships s,
        relPayload row = recPayload t) ∧
    (∀ r ∈ db.entity_relationships, r.is_deleted = false →
      r.source_entity_id = s →
      ∃ r' ∈ (persistRelationships db c idMap recs).entity_relationships,
        r' = mkTombstone r r'.id c) := by
  have hsSrc : s ∈ collectedSourceIds db idMap recs :=
    mem_collectedSourceIds_of_value hs
  have h1 : idMap ≠ [] := by
    intro h; rw [h] at hs; cases hs
  have h2 : collectedSourceIds db idMap recs ≠ [] :=
    List.ne_nil_of_mem hsSrc
  have hT := persistRelationships_rels (c := c) h1 h2
  set old := db.entity_relationships with hold
  set srcIds := collectedSourceIds db idMap recs with hsrcIds
  set resolved := resolvedRecs db idMap recs with hres
  set tomb := tombRowsOf old srcIds c with htombdef
  set news := newRowsFrom c (old ++ tomb) resolved with hnewsdef
  have hcommitsT : ∀ x ∈ (old ++ tomb) ++ news, x.commit_id ≤ c := by
    intro x hx
    rcases List.mem_append.mp hx with hx | hx
    · rcases List.mem_append.mp hx with hx | hx
      · exact Nat.le_of_lt (hc x hx)
      · have := (mem_tombRowsOf hx).2.1
        omega
    · have := (mem_newRowsFrom hx).2.1
      omega
  refine ⟨?_, ?_, ?_⟩
  · -- forward: every active row with source s comes from a resolved rec
    intro row hrow
    rw [activeRelRows, hT] at hrow
    obtain ⟨hsel, hcond⟩ := List.mem_filter.mp hrow
    rw [Bool.and_eq_true] at hcond
    obtain ⟨hnd, hseq⟩ := hcond
    have hlive : row.is_deleted = false := by
      cases hdel : row.is_deleted
      · rfl
      · rw [hdel] at hnd; cases hnd
    have hsrow : row.source_entity_id = s := eq_of_beq hseq
    rcases mem_relSelected_argmax hsel with ⟨q, hq, hqa⟩
    have hrowF := argmaxIdRel_mem hqa
    have hrowAtMax : row ∈ relRowsAtMax ((old ++ tomb) ++ news) :=
      (List.mem_filter.mp hrowF).1
    obtain ⟨hrowT, hrowMax⟩ := mem_relRowsAtMax.mp hrowAtMax
    rcases List.mem_append.mp hrowT with hro | hrn
    · rcases List.mem_append.mp hro with hrold | hrtomb
      · exfalso
        have hcont : srcIds.contains row.source_entity_id = true := by
          rw [hsrow]; exact contains_true_of_mem hsSrc
        rcases tombRowsOf_complete srcIds c hrold
            (by rw [hcont, hlive]; rfl) with ⟨r', hr', heq⟩
        have hr'T : r' ∈ (old ++ tomb) ++ news :=
          List.mem_append_left _ (List.mem_append_right _ hr')
        have hkey : relStage1Key r' = relStage1Key row := by
          rw [heq]; rfl
        have hcomm : r'.commit_id = c := by rw [heq]; rfl
        have hle := le_relMaxCommitFor (r := row) hr'T hkey
        rw [hcomm] at hle
        have hlt : row.commit_id < c := hc row hrold
        omega
      · have hdel := (mem_tombRowsOf hrtomb).1
        rw [hlive] at hdel
        cases hdel
    · rcases mem_newRowsFrom hrn with ⟨_, hcm, t, ht, hpay⟩
      refine ⟨hcm, t, ht, ?_, hpay⟩
      have hfst : row.source_entity_id = t.1 := congrArg Prod.fst hpay
      rw [← hfst]
      exact hsrow
  · -- backward: every resolved rec with source s yields an active row
    intro t ht hts
    rcases newRowsFrom_complete (c := c) (old ++ tomb) ht with
      ⟨n, hn, hnlive, hncomm, hnpay, hnkey⟩
    have hnT : n ∈ (old ++ tomb) ++ news := List.mem_append_right _ hn
    have hmaxle : relMaxCommitFor ((old ++ tomb) ++ news) n ≤ c :=
      relMaxCommitFor_le hcommitsT
    have hmaxge := le_relMaxCommitFor (r := n) hnT rfl
    rw [hncomm] at hmaxge
    have hnmax : n.commit_id = relMaxCommitFor ((old ++ tomb) ++ news) n :=
      by omega
    have hnAtMax : n ∈ relRowsAtMax ((old ++ tomb) ++ news) :=
      mem_relRowsAtMax.mpr ⟨hnT, hnmax⟩
    have hkeysNews :
        news.Pairwise (fun a b => relStage2Key a ≠ relStage2Key b) := by
      have hmap := newRowsFrom_map_key c resolved (old ++ tomb)
      have hpw : (resolved.map resolvedKey).Pairwise Ne :=
        List.pairwise_map.mpr hkeys
      rw [← hmap] at hpw
      exact List.pairwise_map.mp hpw
    have hargm : argmaxIdRel
        ((relRowsAtMax ((old ++ tomb) ++ news)).filter
          (fun y => relStage2Key y == relStage2Key n)) = some n := by
      apply argmaxIdRel_eq_of_max
      · exact List.mem_filter.mpr ⟨hnAtMax, beq_iff_eq.mpr rfl⟩
      · intro x hx hxne
        obtain ⟨hxAtMax, hxkey⟩ := List.mem_filter.mp hx
        have hxT : x ∈ (old ++ tomb) ++ news :=
          (mem_relRowsAtMax.mp hxAtMax).1
        rcases List.mem_append.mp hxT with hxo | hxn
        · exact newRowsFrom_id_gt hn x hxo
        · have hsym : Symmetric
              (fun (a b : RelRow) => relStage2Key a ≠ relStage2Key b) :=
            fun a b hab he => hab he.symm
          exact absurd (eq_of_beq hxkey)
            (hkeysNews.forall hsym hxn hn hxne)
    have hsel : n ∈ relSelected ((old ++ tomb) ++ news) :=
      relSelected_of_argmax hnAtMax hargm
    have hnsrc : n.source_entity_id = s := by
      have hfst : n.source_entity_id = t.1 := congrArg Prod.fst hnpay
      rw [hfst, hts]
    refine ⟨n, ?_, hnpay⟩
    rw [activeRelRows, hT]
    refine List.mem_filter.mpr ⟨hsel, ?_⟩
    rw [hnlive, hnsrc]
    simp
  · -- tombstoning of the previously live rows of this source
    intro r hr hrlive hrs
    have hcont : srcIds.contains r.source_entity_id = true := by
      rw [hrs]; exact contains_true_of_mem hsSrc
    rcases tombRowsOf_complete srcIds c hr
        (by rw [hcont, hrlive]; rfl) with ⟨r', hr', heq⟩
    refine ⟨r', ?_, heq⟩
    rw [hT]
    exact List.mem_append_left _ (List.mem_append_right _ hr')

/-- A store with two entities and one live strongReference edge
EntityA -> EntityB persisted at commit 1. -/
def c8Db : Db :=
  let p0 := recordCommit {} "c8base" none "master" true
  let p1 := persistEntities p0.1 p0.2 [entA, entB]
  persistRelationships p1.1 p0.2 p1.2 [relAB]

/-- The id map of a re-persist of EntityA's file. -/
def c8IdMap : List (String × Nat) := [("sidA", 1)]

/-- The new edge set of the re-persist: one conforms edge to EntityB. -/
def c8Recs : List RelationshipRecord :=
  [{ source_stable_id := "sidA", target_name := "EntityB",
     edge_type := "conforms", target_module := some "M" }]

/-- C8 witness: re-persisting EntityA's edges at commit 2 replaces its
active strongReference edge with the new conforms edge and tombstones
the old row at commit 2. -/
theorem C8_persist_relationships_witness :
    (∀ row ∈ activeRelRows
        (persistRelationships c8Db 2 c8IdMap c8Recs).entity_relationships 1,
      row.commit_id = 2 ∧ ∃ t ∈ resolvedRecs c8Db c8IdMap c8Recs,
        t.1 = 1 ∧ relPayload row = recPayload t) ∧
    (∀ t ∈ resolvedRecs c8Db c8IdMap c8Recs, t.1 = 1 →
      ∃ row ∈ activeRelRows
        (persistRelationships c8Db 2 c8IdMap c8Recs).entity_relationships 1,
        relPayload row = recPayload t) ∧
    (∀ r ∈ c8Db.entity_relationships, r.is_deleted = false →
      r.source_entity_id = 1 →
      ∃ r' ∈ (persistRelationships c8Db 2 c8IdMap
          c8Recs).entity_relationships,
        r' = mkTombstone r r'.id 2) :=
  C8_persist_relationships_replaces_active_edges c8Db 2 c8IdMap c8Recs 1
    (by decide) (by decide) (by decide)

end GraphRag
